import Mathlib

/-
  Verification of the IR-to-bytecode lowering core (source/slang/bytecode.cpp).

  The embedding below translates the generator into Lean:
  * the mutable generation contexts (SharedBytecodeGenerationContext and
    BytecodeGenerationContext) become a single explicit state record,
    threaded through an Except-valued state monad `GenM`;
  * the fatal SLANG_UNEXPECTED reports and C++ null-pointer dereferences
    become `GenErr` errors;
  * `Dictionary` is kept abstract: the code only ever calls
    `TryGetValue` and `Add` on its dictionaries, so the whole generator is
    parameterized over a `DictImpl` (any implementation of those two
    operations), which lets us prove that the output does not depend on
    the dictionary representation (in particular not on hash iteration
    order);
  * the byte arena (`List<uint8_t> bytecode`) is modelled as a `List UInt8`
    with the exact allocation arithmetic of `allocateRaw`; raw byte stores
    (the header fields, string payloads, copied code) are modelled as byte
    writes at their offsets, while the contents of typed records
    (BCModule, BCFunc, ...) are additionally shadowed as Lean structures so
    that their field values can be stated (bytecode.h, which fixes their
    exact struct layout, is not part of the sources; the header layout is
    modelled from the spec).
-/

namespace SlangBC

/-! ## Abstract dictionaries

`Dictionary<K,V>` in the source is used only through `TryGetValue` and
`Add` (no iteration).  We model any such implementation as a `DictImpl`,
and `DictLawful` states the two equations that any correct map
implementation satisfies.  `Add` in the source asserts that the key is
fresh; on fresh keys the update law below coincides with append semantics. -/

structure DictImpl : Type 1 where
  D : Type → Type → Type
  empty : ∀ {κ ν : Type}, D κ ν
  find? : ∀ {κ ν : Type} [DecidableEq κ], D κ ν → κ → Option ν
  add : ∀ {κ ν : Type} [DecidableEq κ], D κ ν → κ → ν → D κ ν

structure DictLawful (I : DictImpl) : Prop where
  find_empty : ∀ {κ ν : Type} [DecidableEq κ] (k : κ),
    I.find? (I.empty (κ := κ) (ν := ν)) k = none
  find_add : ∀ {κ ν : Type} [DecidableEq κ] (d : I.D κ ν) (k : κ) (v : ν) (k' : κ),
    I.find? (I.add d k v) k' = if k' = k then some v else I.find? d k'

/-- Association-list implementation of `DictImpl` (insertion at the front,
first-match lookup). -/
def alFind? {κ ν : Type} [DecidableEq κ] : List (κ × ν) → κ → Option ν
  | [], _ => none
  | (k, v) :: d, k' => if k' = k then some v else alFind? d k'

def alImpl : DictImpl where
  D κ ν := List (κ × ν)
  empty := []
  find? := alFind?
  add d k v := (k, v) :: d

theorem alImpl_lawful : DictLawful alImpl := by
  constructor
  · intro κ ν _ k; rfl
  · intro κ ν _ d k v k'; rfl

/-- Function-map implementation of `DictImpl`. -/
def fnImpl : DictImpl where
  D κ ν := κ → Option ν
  empty := fun _ => none
  find? d k := d k
  add d k v := fun k' => if k' = k then some v else d k'

theorem fnImpl_lawful : DictLawful fnImpl := by
  constructor
  · intro κ ν _ k; rfl
  · intro κ ν _ d k v k'; rfl

/-! ## The IR model

The generator consumes an already-lowered IR graph.  The parts of the IR
interface it uses (opcode, data type, operand list, block and global-inst
iteration, literal payloads) are modelled below.  Instruction identity -
`IRInst*` pointer identity, which keys the dictionaries - is modelled by a
`Nat` id carried by every instruction occurrence. -/

inductive BaseType : Type
  | Void | Bool | Int | UInt | UInt64 | Half | Float | Double
  deriving DecidableEq

mutual
inductive Ty : Type
  | basic (b : BaseType)
  | func (result : Ty) (params : TyList)
  | ptr (valueType : Ty)
  | rwStructuredBuffer (elementType : Ty)
  | structuredBuffer (elementType : Ty)
  | unsupported (tag : Nat)
  deriving DecidableEq
/-- Parameter list of a function type (a separate inductive so that `Ty`
is not a nested inductive). -/
inductive TyList : Type
  | nil
  | cons (head : Ty) (tail : TyList)
  deriving DecidableEq
end

/-- Modelled from the spec: canonicalization of types is an external
collaborator ("Canonicalize `t`"); the `Ty` values fed to the generator
stand for canonical types already, so `GetCanonicalType` is the identity.
It can only be called through a non-null `Type*`. -/
def GetCanonicalType (t : Ty) : Ty := t

/-- Modelled from the spec: the numeric values of the IR opcode enumeration
live in headers outside the given sources.  The spec fixes `IntLit=7`,
`Add=12`, `ReturnVoid=3`; the remaining opcodes only need to be distinct. -/
def kIROp_ReturnVoid : Nat := 3
def kIROp_IntLit : Nat := 7
def kIROp_FloatLit : Nat := 8
def kIROp_boolConst : Nat := 9
def kIROp_Store : Nat := 20
def kIROp_Load : Nat := 21
def kIROp_Param : Nat := 22
def kIROp_Var : Nat := 23
def kIROp_Func : Nat := 24
def kIROp_global_var : Nat := 25
def kIROp_global_constant : Nat := 26
def kIROp_VoidType : Nat := 40
def kIROp_BoolType : Nat := 41
def kIROp_Int32Type : Nat := 42
def kIROp_UInt32Type : Nat := 43
def kIROp_UInt64Type : Nat := 44
def kIROp_Float16Type : Nat := 45
def kIROp_Float32Type : Nat := 46
def kIROp_Float64Type : Nat := 47
def kIROp_FuncType : Nat := 48
def kIROp_PtrType : Nat := 49
def kIROp_structuredBufferType : Nat := 50
def kIROp_readWriteStructuredBufferType : Nat := 51

/-- One occurrence of an `IRInst*` as an operand: its identity, opcode,
literal payload and data type (everything `getGlobalValue`, the constant
pool and the `Store` encoding read from an operand). -/
structure OperandRef : Type where
  oid : Nat
  op : Nat
  intVal : Int
  ty? : Option Ty
  deriving DecidableEq

/-- An instruction in a basic block. `floatBits` is the 64-bit pattern of
an IRFloatingPointValue (the generator only copies its bytes). -/
structure IRInstData : Type where
  iid : Nat
  op : Nat
  ty? : Option Ty
  operands : List OperandRef
  intVal : Int
  floatBits : Nat
  deriving DecidableEq

/-- A basic block: its identity (blocks share the dictionary key space with
instructions) and its instructions in order. -/
structure IRBlockData : Type where
  bid : Nat
  insts : List IRInstData
  deriving DecidableEq

/-- An IR global value (IRGlobalValue): function, global variable or
global constant.  `name?` models the bytes of the human-readable name
found through its decorations, when there is one. -/
structure IRGlobalValueData : Type where
  gvid : Nat
  op : Nat
  ty? : Option Ty
  name? : Option (List UInt8)
  blocks : List IRBlockData
  deriving DecidableEq

/-- A module-level instruction: either an `IRGlobalValue` or some other
instruction for which `as<IRGlobalValue>` fails. -/
inductive GlobalItem : Type
  | gv (g : IRGlobalValueData)
  | notGV (iid : Nat) (op : Nat)
  deriving DecidableEq

structure IRModuleData : Type where
  globalInsts : List GlobalItem
  deriving DecidableEq

structure TranslationUnit : Type where
  irModule : Option IRModuleData
  deriving DecidableEq

structure CompileRequest : Type where
  translationUnits : List TranslationUnit
  deriving DecidableEq

/-! ## Bytecode-side value types and shadow records -/

inductive BCConstFlavor : Type
  | globalSymbol
  | constant
  deriving DecidableEq

/-- BCConst: a tagged reference to a global symbol or constant-pool entry. -/
structure BCConst : Type where
  flavor : BCConstFlavor
  id : Nat
  deriving DecidableEq

/-- Shadow of a `BCType` record written into the arena: its arena offset
and field values (op, argCount, the arg offset slots, id). -/
structure BCTypeShadow : Type where
  off : Nat
  op : Nat
  argCount : Nat
  args : List Nat
  id : Nat
  deriving DecidableEq

instance : Inhabited BCTypeShadow := ⟨⟨0, 0, 0, [], 0⟩⟩

/-- Shadow of a `BCReg` register descriptor. -/
structure BCRegShadow : Type where
  op : Nat
  typeID : Nat
  previousVarIndexPlusOne : Nat
  deriving DecidableEq

/-- Shadow of a `BCBlock`: paramCount, the index into the function's
register array of its first parameter register, and the arena offset of
its code. -/
structure BCBlockShadow : Type where
  paramCount : Nat
  paramsStart : Nat
  codeOff : Nat
  deriving DecidableEq

/-- Shadow of a `BCConstant` record of the module constant pool. -/
structure BCConstantShadow : Type where
  op : Nat
  typeID : Nat
  value : Int
  deriving DecidableEq

/-- Shadow of a `BCSymbol`/`BCFunc` record (BCFunc is-a BCSymbol; for a
plain BCSymbol the function-only fields stay at their defaults).  `code`
is the byte array copied into the arena for the function body. -/
structure BCSymbolShadow : Type where
  op : Nat
  typeID : Nat
  name : Option Nat := none
  regCount : Nat := 0
  regs : List BCRegShadow := []
  blockCount : Nat := 0
  blocks : List BCBlockShadow := []
  constCount : Nat := 0
  consts : List BCConst := []
  code : List UInt8 := []
  deriving DecidableEq

/-- Shadow of a `BCModule` record. -/
structure BCModuleShadow : Type where
  off : Nat
  symbolCount : Nat
  symbols : List (Option Nat)
  constantCount : Nat
  constants : List BCConstantShadow
  typeCount : Nat
  types : List Nat
  deriving DecidableEq

/-- Shadow of the container header. -/
structure ContainerShadow : Type where
  headerOff : Nat
  moduleCount : Nat
  modules : List (Option BCModuleShadow)
  deriving DecidableEq

/-! ## Record sizes and layout

Modelled from the spec: bytecode.h (struct definitions) is not among the
sources.  The spec pins the header layout (magic at bytes 0..7, version at
8..11, moduleCount at 12..15, then the pointer-sized modules offset) and
says all records are stored at natural alignment with pointer-sized,
arena-relative offsets; the remaining sizes follow the spec's field lists
under a 64-bit C ABI.  No claim depends on the exact sizes of the
non-header records. -/

def sizeofBCPtr : Nat := 8
def sizeofBCHeader : Nat := 24
def alignofBCHeader : Nat := 8
def sizeofBCModule : Nat := 48
def alignofBCModule : Nat := 8
def sizeofBCFunc : Nat := 64
def alignofBCFunc : Nat := 8
def sizeofBCSymbol : Nat := 16
def alignofBCSymbol : Nat := 8
def sizeofBCType : Nat := 16
def sizeofBCReg : Nat := 12
def alignofBCReg : Nat := 4
def sizeofBCBlock : Nat := 24
def alignofBCBlock : Nat := 8
def sizeofBCConstant : Nat := 16
def alignofBCConstant : Nat := 8
def sizeofIRIntegerValue : Nat := 8

/-- The magic bytes "slang\0bc" (with the embedded NUL). -/
def magicBytes : List UInt8 :=
  [0x73, 0x6C, 0x61, 0x6E, 0x67, 0x00, 0x62, 0x63]

/-- Little-endian bytes of a value truncated to `n` bytes. -/
def leBytes : Nat → Nat → List UInt8
  | 0, _ => []
  | n + 1, v => UInt8.ofNat (v % 256) :: leBytes n (v / 256)

/-! ## The generation state and monad -/

inductive GenErr : Type
  | noIDForInst        -- SLANG_UNEXPECTED("no ID for inst")
  | unimplemented      -- SLANG_UNEXPECTED("unimplemented")
  | nullDereference    -- a C++ null-pointer dereference (undefined behavior)
  | fuelExhausted      -- cannot arise from the entry points (see emitBCType)
  deriving DecidableEq

/-- The whole mutable state of one generation: the fields of
`SharedBytecodeGenerationContext` followed by the per-context fields of
`BytecodeGenerationContext` (`currentBytecode`, `remappedGlobalSymbols`,
`mapInstToLocalID`).  Sub-contexts for function bodies are modelled by
`withFreshLocals`, which swaps the three context-local fields. -/
structure GenState (I : DictImpl) : Type where
  bytecode : List UInt8
  mapValueToGlobal : I.D Nat BCConst
  bcTypes : List BCTypeShadow
  mapTypeToID : I.D (Option Ty) Nat
  constants : List OperandRef
  currentBytecode : List UInt8
  remappedGlobalSymbols : List BCConst
  mapInstToLocalID : I.D Nat Int

def initState (I : DictImpl) : GenState I where
  bytecode := []
  mapValueToGlobal := I.empty
  bcTypes := []
  mapTypeToID := I.empty
  constants := []
  currentBytecode := []
  remappedGlobalSymbols := []
  mapInstToLocalID := I.empty

def GenM (I : DictImpl) (α : Type) : Type :=
  GenState I → Except GenErr (α × GenState I)

instance (I : DictImpl) : Monad (GenM I) where
  pure a := fun s => .ok (a, s)
  bind m f := fun s =>
    match m s with
    | .ok (a, s') => f a s'
    | .error e => .error e

def throwG {I : DictImpl} (e : GenErr) {α : Type} : GenM I α :=
  fun _ => .error e

section PipelineDefs

variable {I : DictImpl}

/-! ### Arena primitives -/

/-- Round `c` up to alignment `a`.  The source computes
`(c + (a-1)) & ~(a-1)`; for the power-of-two alignments in use this
equals the rounding division below. -/
def alignUp (c a : Nat) : Nat := (c + (a - 1)) / a * a

/-- allocateRaw: zero-fill up to the aligned offset plus `size` more zero
bytes, and return the aligned offset. -/
def allocateRaw (size align : Nat) : GenM I Nat :=
  fun s =>
    let currentOffset := s.bytecode.length
    let beginOffset := alignUp currentOffset align
    let endOffset := beginOffset + size
    .ok (beginOffset,
      { s with bytecode := s.bytecode ++ List.replicate (endOffset - currentOffset) 0 })

/-- Overwrite the byte at index `off` (no-op when out of range; the
source's stores are always in range of the live arena). -/
def storeByte : List UInt8 → Nat → UInt8 → List UInt8
  | [], _, _ => []
  | _ :: t, 0, b => b :: t
  | h :: t, n + 1, b => h :: storeByte t n b

def storeBytes (l : List UInt8) : Nat → List UInt8 → List UInt8
  | _, [] => l
  | off, b :: bs => storeBytes (storeByte l off b) (off + 1) bs

/-- A direct field/memcpy store through a `BytecodeGenerationPtr`. -/
def storeBytesAt (off : Nat) (bs : List UInt8) : GenM I Unit :=
  fun s => .ok ((), { s with bytecode := storeBytes s.bytecode off bs })

/-! ### Dictionary and list primitives over the state -/

def findValueToGlobal (k : Nat) : GenM I (Option BCConst) :=
  fun s => .ok (I.find? s.mapValueToGlobal k, s)

def addValueToGlobal (k : Nat) (v : BCConst) : GenM I Unit :=
  fun s => .ok ((), { s with mapValueToGlobal := I.add s.mapValueToGlobal k v })

def findTypeToID (k : Option Ty) : GenM I (Option Nat) :=
  fun s => .ok (I.find? s.mapTypeToID k, s)

def getBCTypes : GenM I (List BCTypeShadow) :=
  fun s => .ok (s.bcTypes, s)

/-- `mapTypeToID.Add(type, id)` followed by `bcTypes.Add(bcType)`. -/
def registerType (k : Option Ty) (id : Nat) (sh : BCTypeShadow) : GenM I Unit :=
  fun s => .ok ((), { s with
    mapTypeToID := I.add s.mapTypeToID k id
    bcTypes := s.bcTypes ++ [sh] })

def getConstants : GenM I (List OperandRef) :=
  fun s => .ok (s.constants, s)

def pushConstant (v : OperandRef) : GenM I Unit :=
  fun s => .ok ((), { s with constants := s.constants ++ [v] })

def getRemapped : GenM I (List BCConst) :=
  fun s => .ok (s.remappedGlobalSymbols, s)

def pushRemapped (v : BCConst) : GenM I Unit :=
  fun s => .ok ((), { s with remappedGlobalSymbols := s.remappedGlobalSymbols ++ [v] })

def findInstLocalID (k : Nat) : GenM I (Option Int) :=
  fun s => .ok (I.find? s.mapInstToLocalID k, s)

def addInstLocalID (k : Nat) (v : Int) : GenM I Unit :=
  fun s => .ok ((), { s with mapInstToLocalID := I.add s.mapInstToLocalID k v })

def getCurrentCode : GenM I (List UInt8) :=
  fun s => .ok (s.currentBytecode, s)

/-- encodeUInt8: append one byte to the current (per-context) bytecode. -/
def encodeUInt8 (value : UInt8) : GenM I Unit :=
  fun s => .ok ((), { s with currentBytecode := s.currentBytecode ++ [value] })

/-- The state at entry of a fresh sub-context: the three context-local
fields reset, everything shared kept. -/
def resetLocals (s : GenState I) : GenState I :=
  { s with
    currentBytecode := []
    remappedGlobalSymbols := []
    mapInstToLocalID := I.empty }

/-- Run `body` in a fresh sub-context (fresh `currentBytecode`,
`remappedGlobalSymbols` and `mapInstToLocalID`, shared everything else),
restoring the outer context-local fields afterwards. -/
def withFreshLocals {α : Type} (body : GenM I α) : GenM I α :=
  fun s =>
    match body (resetLocals s) with
    | .ok (a, s') => .ok (a, { s' with
        currentBytecode := s.currentBytecode
        remappedGlobalSymbols := s.remappedGlobalSymbols
        mapInstToLocalID := s.mapInstToLocalID })
    | .error e => .error e

/-! ### Variable-length integer encoding -/

/-- The group-splitting loop of `encodeUInt`: `bytes[index] = value & 0x7F;
value >>= 7; if (!value) break; bytes[index] |= 0x80;`, repeated.  The
result is the scratch array in storage order (least-significant group
first); the continuation bit is set on every stored group except the last
one stored.  The `fuel` argument mirrors the 16-entry scratch array bound
(a 64-bit `UInt` needs at most 10 groups). -/
def uintGroups : Nat → Nat → List UInt8
  | 0, _ => []
  | fuel + 1, value =>
    let b := value % 128
    let rest := value / 128
    if rest = 0 then [UInt8.ofNat b]
    else (UInt8.ofNat b ||| 0x80) :: uintGroups fuel rest

def emitBytes : List UInt8 → GenM I Unit
  | [] => pure ()
  | b :: bs => do
    encodeUInt8 b
    emitBytes bs

/-- encodeUInt: values below 128 are a single byte; otherwise the scratch
array of 7-bit groups is emitted in reverse (most-significant group
first). -/
def encodeUInt (value : Nat) : GenM I Unit :=
  if value < 128 then encodeUInt8 (UInt8.ofNat value)
  else emitBytes ((uintGroups 16 value).reverse)

/-- The `UInt(...)` cast applied to a (64-bit) signed value. -/
def toUInt64N (v : Int) : Nat := (v % (2 ^ 64 : Int)).toNat

/-- encodeSInt: the zig-zag conversion of the source, with the 64-bit
`UInt` arithmetic made explicit (`~x` is `2^64 - 1 - x`). -/
def encodeSInt (value : Int) : GenM I Unit :=
  let uValue : Nat :=
    if value < 0 then
      ((2 ^ 64 - 1 - toUInt64N value) <<< 1) % 2 ^ 64 ||| 1
    else
      (toUInt64N value <<< 1) % 2 ^ 64
  encodeUInt uValue

/-! ### Operand resolution -/

def getGlobalValue (value : OperandRef) : GenM I BCConst := do
  match ← findValueToGlobal value.oid with
  | some bcConst => pure bcConst
  | none =>
    -- Next we need to check for things that can be mapped to global IDs
    -- on the fly (the constants path).
    if value.op = kIROp_IntLit then do
      let cs ← getConstants
      let constID := cs.length
      pushConstant value
      let bcConst : BCConst := ⟨.constant, constID⟩
      addValueToGlobal value.oid bcConst
      pure bcConst
    else
      throwG .noIDForInst

/-- getLocalID: the local map, then the global fallback; a resolved global
or constant is appended to `remappedGlobalSymbols` and mapped to the
negative local id `~index` (two's complement: `-(index+1)`). -/
def getLocalID (value : OperandRef) : GenM I Int := do
  match ← findInstLocalID value.oid with
  | some localID => pure localID
  | none => do
    let bcConst ← getGlobalValue value
    let rs ← getRemapped
    let remappedSymbolIndex := rs.length
    pushRemapped bcConst
    let localID : Int := -(remappedSymbolIndex + 1)
    addInstLocalID value.oid localID
    pure localID

def encodeOperand (operand : OperandRef) : GenM I Unit := do
  let id ← getLocalID operand
  encodeSInt id

/-! ### The type interner -/

/-- The `emitBCType(context, type, op, args, argCount)` overload: allocate
the record, fill it, then register `(type -> id)` and append the record to
the ordered type table.  Note that the dictionary key is the `Type*`
argument itself, which is null when the record is the void type emitted
for a null input type. -/
def emitBCTypeRecord (type? : Option Ty) (op : Nat) (args : List Nat) :
    GenM I BCTypeShadow := do
  let size := sizeofBCType + args.length * sizeofBCPtr
  let off ← allocateRaw size sizeofBCPtr
  let bcTypes ← getBCTypes
  let id := bcTypes.length
  let sh : BCTypeShadow := ⟨off, op, args.length, args, id⟩
  registerType type? id sh
  pure sh

/-- The `emitBCVarArgType` helper (takes the collected operand list). -/
def emitBCVarArgType (type? : Option Ty) (op : Nat) (args : List Nat) :
    GenM I BCTypeShadow :=
  emitBCTypeRecord type? op args

/-- The argument-free `emitBCType(context, type, op)` overload. -/
def emitBCTypeOp (type? : Option Ty) (op : Nat) : GenM I BCTypeShadow :=
  emitBCTypeRecord type? op []

mutual

/-- emitBCType: canonicalize (a null `Type*` cannot be canonicalized -
`type->GetCanonicalType()` dereferences it), consult the type map, and
fall through to `emitBCTypeImpl` on a miss.  The recursion of the source
is structural on the type; the `fuel` argument (always sufficient at the
entry point `emitBCType`) makes that explicit. -/
def emitBCTypeF : Nat → Option Ty → GenM I BCTypeShadow
  | 0, _ => throwG .fuelExhausted
  | _ + 1, none => throwG .nullDereference
  | fuel + 1, some type => do
    let canonical := GetCanonicalType type
    match ← findTypeToID (some canonical) with
    | some id => pure ((← getBCTypes).getD id default)
    | none => emitBCTypeImplF fuel (some canonical)

/-- emitBCTypeImpl: a null type is interpreted as equivalent to `Void`;
the supported type kinds are emitted; anything else is the fatal
"unimplemented" report. -/
def emitBCTypeImplF : Nat → Option Ty → GenM I BCTypeShadow
  | 0, _ => throwG .fuelExhausted
  | _ + 1, none => emitBCTypeOp none kIROp_VoidType
  | fuel + 1, some type =>
    match type with
    | .basic b =>
      match b with
      | .Void => emitBCTypeOp (some type) kIROp_VoidType
      | .Bool => emitBCTypeOp (some type) kIROp_BoolType
      | .Int => emitBCTypeOp (some type) kIROp_Int32Type
      | .UInt => emitBCTypeOp (some type) kIROp_UInt32Type
      | .UInt64 => emitBCTypeOp (some type) kIROp_UInt64Type
      | .Half => emitBCTypeOp (some type) kIROp_Float16Type
      | .Float => emitBCTypeOp (some type) kIROp_Float32Type
      | .Double => emitBCTypeOp (some type) kIROp_Float64Type
    | .func resultType params => do
      let rsh ← emitBCTypeF fuel (some resultType)
      let args ← emitBCTypeListF fuel params
      emitBCVarArgType (some type) kIROp_FuncType (rsh.off :: args)
    | .ptr valueType => do
      let vsh ← emitBCTypeF fuel (some valueType)
      emitBCVarArgType (some type) kIROp_PtrType [vsh.off]
    | .rwStructuredBuffer elementType => do
      let esh ← emitBCTypeF fuel (some elementType)
      emitBCVarArgType (some type) kIROp_readWriteStructuredBufferType [esh.off]
    | .structuredBuffer elementType => do
      let esh ← emitBCTypeF fuel (some elementType)
      emitBCVarArgType (some type) kIROp_structuredBufferType [esh.off]
    | .unsupported _ => throwG .unimplemented

/-- The parameter-type loop of the `FuncType` case. -/
def emitBCTypeListF : Nat → TyList → GenM I (List Nat)
  | 0, _ => throwG .fuelExhausted
  | _ + 1, .nil => pure []
  | fuel + 1, .cons head tail => do
    let sh ← emitBCTypeF fuel (some head)
    let rest ← emitBCTypeListF fuel tail
    pure (sh.off :: rest)

end

end PipelineDefs

mutual
/-- Structural size of a type, used to provide the (always sufficient)
fuel for the type-emission recursion. -/
def tyFuel : Ty → Nat
  | .basic _ => 1
  | .func result params => 1 + tyFuel result + tyListFuel params
  | .ptr valueType => 1 + tyFuel valueType
  | .rwStructuredBuffer elementType => 1 + tyFuel elementType
  | .structuredBuffer elementType => 1 + tyFuel elementType
  | .unsupported _ => 1
def tyListFuel : TyList → Nat
  | .nil => 1
  | .cons head tail => 1 + tyFuel head + tyListFuel tail
end

def tyFuelOpt : Option Ty → Nat
  | none => 0
  | some t => tyFuel t

section PipelineDefsB

variable {I : DictImpl}

/-- The entry point `emitBCType(context, type)`.  Twice the structural
size plus two over-approximates the recursion depth of the source (every
recursive call is on a structurally smaller type), so the fuel never runs
out when entered here. -/
def emitBCType (type? : Option Ty) : GenM I BCTypeShadow :=
  emitBCTypeF (2 * tyFuelOpt type? + 2) type?

def getTypeID (type? : Option Ty) : GenM I Nat := do
  let bcType ← emitBCType type?
  pure bcType.id

/-- getTypeIDForGlobalSymbol: a missing data type yields type id 0 without
touching the interner. -/
def getTypeIDForGlobalSymbol (ty? : Option Ty) : GenM I Nat :=
  match ty? with
  | none => pure 0
  | some t => getTypeID (some t)

/-- The `encodeOperand(context, IRType*)` overload. -/
def encodeTypeOperand (type? : Option Ty) : GenM I Unit := do
  let id ← getTypeID type?
  encodeUInt id

/-! ### The instruction emitter -/

/-- opHasResult: the instruction's data type is present and is not the
distinguished basic `Void` type. -/
def opHasResult (inst : IRInstData) : Bool :=
  match inst.ty? with
  | none => false
  | some (.basic .Void) => false
  | some _ => true

/-- The instruction itself, in operand position (pointer identity plus
the fields `getGlobalValue` and the encoders read). -/
def selfOperand (inst : IRInstData) : OperandRef :=
  ⟨inst.iid, inst.op, inst.intVal, inst.ty?⟩

/-- `inst->getOperand(k)` (always in range in the source; out of range is
modelled by a dummy operand). -/
def getOperand (inst : IRInstData) (k : Nat) : OperandRef :=
  inst.operands.getD k ⟨0, 0, 0, none⟩

def encodeOperandList : List OperandRef → GenM I Unit
  | [] => pure ()
  | o :: os => do
    encodeOperand o
    encodeOperandList os

/-- generateBytecodeForInst: the per-opcode instruction encodings. -/
def generateBytecodeForInst (inst : IRInstData) : GenM I Unit :=
  if inst.op = kIROp_ReturnVoid then
    -- Trivial encoding here
    encodeUInt inst.op
  else if inst.op = kIROp_IntLit then do
    encodeUInt inst.op
    encodeTypeOperand inst.ty?
    encodeUInt (toUInt64N inst.intVal)
    -- destination:
    encodeOperand (selfOperand inst)
  else if inst.op = kIROp_FloatLit then do
    encodeUInt inst.op
    encodeTypeOperand inst.ty?
    -- the raw bytes of the IEEE-754 double, in host (little-endian) order
    emitBytes (leBytes 8 inst.floatBits)
    -- destination:
    encodeOperand (selfOperand inst)
  else if inst.op = kIROp_boolConst then do
    encodeUInt inst.op
    encodeUInt (if inst.intVal = 0 then 0 else 1)
    -- destination:
    encodeOperand (selfOperand inst)
  else if inst.op = kIROp_Store then do
    encodeUInt inst.op
    -- We need to encode the type being stored, to make our lives easier.
    encodeTypeOperand (getOperand inst 1).ty?
    encodeOperand (getOperand inst 0)
    encodeOperand (getOperand inst 1)
  else if inst.op = kIROp_Load then do
    encodeUInt inst.op
    encodeTypeOperand inst.ty?
    encodeOperand (getOperand inst 0)
    encodeOperand (selfOperand inst)
  else do
    -- Default case: bytecode ops and IR opcodes coincide.
    let operandCount := inst.operands.length
    encodeUInt inst.op
    encodeTypeOperand inst.ty?
    encodeUInt operandCount
    encodeOperandList inst.operands
    if opHasResult inst then
      -- The instruction can be encoded as its own operand for the destination.
      encodeOperand (selfOperand inst)
    else
      pure ()

/-! ### The function encoder -/

/-- Pass (a): assign contiguous local ids to the basic blocks. -/
def enumBlocks : List IRBlockData → Nat → GenM I Unit
  | [], _ => pure ()
  | bb :: bbs, blockCounter => do
    addInstLocalID bb.bid (Int.ofNat blockCounter)
    enumBlocks bbs (blockCounter + 1)

/-- The per-block body of the register-counting pass: the parameter count
and the number of registers consumed by one block's instructions (`Param`
1, `Var` 2, any other instruction with a result 1). -/
def blockCounts : List IRInstData → Nat × Nat
  | [] => (0, 0)
  | ii :: rest =>
    let (params, regs) := blockCounts rest
    if ii.op = kIROp_Param then (params + 1, regs + 1)
    else if ii.op = kIROp_Var then (params, regs + 2)
    else if opHasResult ii then (params, regs + 1)
    else (params, regs)

/-- Pass (b): per-block parameter counts and the total register count. -/
def countPass : List IRBlockData → List Nat × Nat
  | [] => ([], 0)
  | bb :: bbs =>
    let (params, regs) := blockCounts bb.insts
    let (ps, total) := countPass bbs
    (params :: ps, regs + total)

/-- Pass (d), inner loop: bind instructions to register indices and fill
the register descriptors.  A `var` takes two adjacent slots; the second
slot's type is the pointee type of the `var`'s pointer type (dereferenced
without a check in the source). -/
def fillInsts : List IRInstData → Nat → GenM I (Nat × List BCRegShadow)
  | [], regCounter => pure (regCounter, [])
  | ii :: rest, regCounter =>
    if ii.op = kIROp_Var then do
      addInstLocalID ii.iid (Int.ofNat regCounter)
      let t1 ← getTypeIDForGlobalSymbol ii.ty?
      let t2 ← (match ii.ty? with
        | some (.ptr valueType) => getTypeID (some valueType)
        | _ => throwG .nullDereference)
      let (rc, regs) ← fillInsts rest (regCounter + 2)
      pure (rc, ⟨ii.op, t1, regCounter⟩ :: ⟨ii.op, t2, regCounter + 1⟩ :: regs)
    else if opHasResult ii then do
      addInstLocalID ii.iid (Int.ofNat regCounter)
      let t ← getTypeIDForGlobalSymbol ii.ty?
      let (rc, regs) ← fillInsts rest (regCounter + 1)
      pure (rc, ⟨ii.op, t, regCounter⟩ :: regs)
    else
      fillInsts rest regCounter

/-- Pass (d), outer loop: also records each block's first register index
(`bcBlocks[blockID].params = bcRegs + regCounter`). -/
def fillBlocks : List IRBlockData → Nat → GenM I (Nat × (List Nat × List BCRegShadow))
  | [], regCounter => pure (regCounter, ([], []))
  | bb :: bbs, regCounter => do
    let (rc, regs) ← fillInsts bb.insts regCounter
    let (rcEnd, rest) ← fillBlocks bbs rc
    pure (rcEnd, (regCounter :: rest.1, regs ++ rest.2))

/-- Pass (e), inner loop: emit every instruction of a block; `Param`
instructions emit no bytes. -/
def emitInsts : List IRInstData → GenM I Unit
  | [] => pure ()
  | ii :: rest => do
    if ii.op = kIROp_Param then pure ()
    else generateBytecodeForInst ii
    emitInsts rest

/-- Pass (e), outer loop: record each block's offset in the current
per-function byte buffer, then emit its instructions. -/
def emitBlocks : List IRBlockData → GenM I (List Nat)
  | [] => pure []
  | bb :: bbs => do
    let code ← getCurrentCode
    let blockOffset := code.length
    emitInsts bb.insts
    let rest ← emitBlocks bbs
    pure (blockOffset :: rest)

/-- Assemble the `BCBlock` shadows from the per-block parameter counts,
first-register indices and code offsets (relative to the copied code
array at `base`). -/
def mkBlockShadows (base : Nat) : List Nat → List Nat → List Nat → List BCBlockShadow
  | p :: ps, st :: sts, o :: os => ⟨p, st, base + o⟩ :: mkBlockShadows base ps sts os
  | _, _, _ => []

def sizeofBCConst : Nat := 8
def alignofBCConst : Nat := 4

/-- generateBytecodeSymbolForInst: `BCFunc` for functions (the three-pass
function encoder), a plain `BCSymbol` for global variables and constants,
and the null pointer for any other global value. -/
def generateBytecodeSymbolForInst (inst : IRGlobalValueData) :
    GenM I (Option (Nat × BCSymbolShadow)) :=
  if inst.op = kIROp_Func then do
    let bcFuncOff ← allocateRaw sizeofBCFunc alignofBCFunc
    let typeID ← getTypeIDForGlobalSymbol inst.ty?
    withFreshLocals (do
      enumBlocks inst.blocks 0
      let blockCount := inst.blocks.length
      let _bcBlocksOff ← allocateRaw (blockCount * sizeofBCBlock) alignofBCBlock
      let (paramCounts, regCount) := countPass inst.blocks
      let _bcRegsOff ← allocateRaw (regCount * sizeofBCReg) alignofBCReg
      let fillRes ← fillBlocks inst.blocks 0
      let paramStarts := fillRes.2.1
      let regs := fillRes.2.2
      let blockOffsets ← emitBlocks inst.blocks
      let code ← getCurrentCode
      let byteCount := code.length
      let bytesOff ← allocateRaw byteCount 1
      storeBytesAt bytesOff code
      let consts ← getRemapped
      let constCount := consts.length
      let _bcConstsOff ← allocateRaw (constCount * sizeofBCConst) alignofBCConst
      pure (some (bcFuncOff,
        { op := inst.op
          typeID := typeID
          regCount := regCount % 2 ^ 32
          regs := regs
          blockCount := blockCount % 2 ^ 32
          blocks := mkBlockShadows bytesOff paramCounts paramStarts blockOffsets
          constCount := constCount % 2 ^ 32
          consts := consts
          code := code })))
  else if inst.op = kIROp_global_var ∨ inst.op = kIROp_global_constant then do
    let off ← allocateRaw sizeofBCSymbol alignofBCSymbol
    -- note: getTypeID (not the null-guarded variant) on `inst->type`
    let typeID ← getTypeID inst.ty?
    -- TODO in the source: actually need to initialize with body instructions
    pure (some (off, { op := inst.op, typeID := typeID }))
  else
    -- Most instructions don't need a custom representation.
    pure none

/-! ### Names -/

def allocateString (data : List UInt8) : GenM I Nat := do
  let ptr ← allocateRaw (data.length + 1) 1
  storeBytesAt ptr data
  pure ptr

/-- tryGenerateNameForSymbol: the name found through the decorations, if
any, is allocated as a NUL-terminated string; otherwise the null handle. -/
def tryGenerateNameForSymbol (inst : IRGlobalValueData) : GenM I (Option Nat) :=
  match inst.name? with
  | some bs => do
    let ptr ← allocateString bs
    pure (some ptr)
  | none => pure none

/-! ### The module assembler -/

/-- The pre-pass of `generateBytecodeForModule`: walk the module's global
instructions in declaration order, assign dense global ids, and record
them in both the value-to-global map and (global scope only) the local-id
map. -/
def preAssignGlobals : List GlobalItem → Nat → GenM I Nat
  | [], symbolCount => pure symbolCount
  | .notGV _ _ :: rest, symbolCount => preAssignGlobals rest symbolCount
  | .gv g :: rest, symbolCount => do
    let globalID := symbolCount
    addValueToGlobal g.gvid ⟨.globalSymbol, globalID⟩
    -- In the global scope, global IDs are also the local IDs
    addInstLocalID g.gvid (Int.ofNat globalID)
    preAssignGlobals rest (symbolCount + 1)

/-- The symbol-emission loop: re-walk the globals, generate each symbol,
attach its name, and store its pointer at its slot (slots of skipped
symbols stay null). -/
def emitSymbols : List GlobalItem → List (Option Nat) → GenM I (List (Option Nat))
  | [], symbols => pure symbols
  | .notGV _ _ :: rest, symbols => emitSymbols rest symbols
  | .gv g :: rest, symbols => do
    let symbolIndex ← (do
      match ← findInstLocalID g.gvid with
      | some i => pure i.toNat
      | none => throwG .nullDereference)   -- `*TryGetValue(gv)` dereference
    match ← generateBytecodeSymbolForInst g with
    | none => emitSymbols rest symbols
    | some (off, _sh) => do
      let _name ← tryGenerateNameForSymbol g
      emitSymbols rest (symbols.set symbolIndex (some off))

/-- The constant-pool write-out: one record per pending literal; an
`IntLit` also allocates its integer payload in the arena. -/
def emitConstants : List OperandRef → GenM I (List BCConstantShadow)
  | [] => pure []
  | c :: rest => do
    let typeID ← getTypeID c.ty?
    if c.op = kIROp_IntLit then do
      let ptr ← allocateRaw sizeofIRIntegerValue 8
      storeBytesAt ptr (leBytes 8 (toUInt64N c.intVal))
    else
      pure ()
    let rest' ← emitConstants rest
    pure (⟨c.op, typeID, c.intVal⟩ :: rest')

/-- generateBytecodeForModule: a missing IR module yields the null
pointer; otherwise the module record is assembled (symbols, then the
constant pool, then the type table, all read from the shared context). -/
def generateBytecodeForModule (irModule? : Option IRModuleData) :
    GenM I (Option BCModuleShadow) :=
  match irModule? with
  | none =>
    -- Not IR module? Then return a null pointer.
    pure none
  | some irModule => do
    let bcModuleOff ← allocateRaw sizeofBCModule alignofBCModule
    let symbolCount ← preAssignGlobals irModule.globalInsts 0
    let _symbolsOff ← allocateRaw (symbolCount * sizeofBCPtr) sizeofBCPtr
    let symbols ← emitSymbols irModule.globalInsts (List.replicate symbolCount none)
    let cs ← getConstants
    let constantCount := cs.length
    let _constantsOff ← allocateRaw (constantCount * sizeofBCConstant) alignofBCConstant
    let constantShadows ← emitConstants cs
    let bcTypes ← getBCTypes
    let typeCount := bcTypes.length
    let _typesOff ← allocateRaw (typeCount * sizeofBCPtr) sizeofBCPtr
    pure (some
      { off := bcModuleOff
        symbolCount := symbolCount % 2 ^ 32
        symbols := symbols
        constantCount := constantCount % 2 ^ 32
        constants := constantShadows
        typeCount := typeCount % 2 ^ 32
        types := bcTypes.map BCTypeShadow.off })

/-! ### The container assembler -/

def genModulesLoop : List TranslationUnit → GenM I (List (Option BCModuleShadow))
  | [] => pure []
  | tu :: rest => do
    let bcModule ← generateBytecodeForModule tu.irModule
    let bcModules ← genModulesLoop rest
    pure (bcModule :: bcModules)

/-- generateBytecodeContainer: the header is allocated first (it must be
at offset 0), its magic and version are written, every translation unit
contributes one module-pointer entry, and the module count, module
pointer array and modules field are written last. -/
def generateBytecodeContainer (compileReq : CompileRequest) : GenM I ContainerShadow := do
  let headerOff ← allocateRaw sizeofBCHeader alignofBCHeader
  storeBytesAt headerOff magicBytes
  storeBytesAt (headerOff + 8) (leBytes 4 0)
  let bcModulesList ← genModulesLoop compileReq.translationUnits
  let bcModuleCount := bcModulesList.length
  storeBytesAt (headerOff + 12) (leBytes 4 bcModuleCount)
  let bcModulesOff ← allocateRaw (bcModuleCount * sizeofBCPtr) sizeofBCPtr
  storeBytesAt (headerOff + 16) (leBytes 8 bcModulesOff)
  pure
    { headerOff := headerOff
      moduleCount := bcModuleCount % 2 ^ 32
      modules := bcModulesList }

end PipelineDefsB

/-- generateBytecodeForCompileRequest: run the container assembler in a
fresh generation context and hand back the final byte vector
(`compileReq->generatedBytecode = sharedContext.bytecode`) together with
the shadow of the container structure. -/
def generateBytecodeForCompileRequest (I : DictImpl) (compileReq : CompileRequest) :
    Except GenErr (List UInt8 × ContainerShadow) :=
  match generateBytecodeContainer compileReq (initState I) with
  | .ok (shadow, s) => .ok (s.bytecode, shadow)
  | .error e => .error e

/-! ## Specification-side definitions

`specBlockRegs` and `regCountSpec` transcribe the register-accounting
formula of the spec ("regCount == sum over blocks of (paramCount_block +
var_count_block*2 + other_result_count_block)"), to be compared with the
counting pass of the source. -/

def specBlockRegs (b : IRBlockData) : Nat :=
  b.insts.countP (fun ii => ii.op == kIROp_Param)
    + 2 * b.insts.countP (fun ii => ii.op == kIROp_Var)
    + b.insts.countP
        (fun ii => ii.op != kIROp_Param && ii.op != kIROp_Var && opHasResult ii)

def regCountSpec (blocks : List IRBlockData) : Nat :=
  (blocks.map specBlockRegs).sum

/-! ## Concrete inputs used by the claims -/

def int32 : Ty := .basic .Int

/-- `IntLit 42 : int32`, as an instruction of the entry block. -/
def intLitC2 : IRInstData := ⟨10, kIROp_IntLit, some int32, [], 42, 0⟩

def retVoidC2 : IRInstData := ⟨11, kIROp_ReturnVoid, none, [], 0, 0⟩

/-- A function whose entry block is `IntLit 42 : int32` then `ReturnVoid`
(its own function type left absent so that `int32` is the first interned
type, with id 0). -/
def funcC2 : IRGlobalValueData :=
  ⟨1, kIROp_Func, none, none, [⟨2, [intLitC2, retVoidC2]⟩]⟩

def funcGenC2 : Except GenErr (Option (Nat × BCSymbolShadow) × GenState alImpl) :=
  generateBytecodeSymbolForInst (I := alImpl) funcC2 (initState alImpl)

/-- The instruction bytes emitted for `funcC2`'s body. -/
def codeC2 : List UInt8 :=
  match funcGenC2 with
  | .ok (some (_, sh), _) => sh.code
  | _ => []

/-- The pending module constant pool after generating `funcC2`. -/
def constantsC2 : List OperandRef :=
  match funcGenC2 with
  | .ok (_, s) => s.constants
  | .error _ => [⟨0, 0, 0, none⟩]

def regCountC2 : Nat :=
  match funcGenC2 with
  | .ok (some (_, sh), _) => sh.regCount
  | _ => 999

/-- A global variable of type `int32` (it makes the module that holds it
intern one type). -/
def gvarC3 : IRGlobalValueData := ⟨1, kIROp_global_var, some int32, none, []⟩

/-- Two translation units: the first module holds `gvarC3`, the second
module is present but has no global instructions. -/
def reqC3 : CompileRequest := ⟨[⟨some ⟨[.gv gvarC3]⟩⟩, ⟨some ⟨[]⟩⟩]⟩

def genC3 : Except GenErr (List UInt8 × ContainerShadow) :=
  generateBytecodeForCompileRequest alImpl reqC3

/-- The module record produced for the second (empty) module of `reqC3`. -/
def module2C3 : Option BCModuleShadow :=
  match genC3 with
  | .ok (_, sh) => sh.modules.getD 1 none
  | .error _ => none

/-- An `IntLit 5 : int32` in operand position (the stored value of the
spec's `store v, 5` scenario). -/
def litRefC5 : OperandRef := ⟨30, kIROp_IntLit, 5, some int32⟩

/-- Run an encoder in a fresh context and return the current (per-context)
bytecode it appended. -/
def runEncode (m : GenM alImpl Unit) : List UInt8 :=
  match m (initState alImpl) with
  | .ok (_, s) => s.currentBytecode
  | .error _ => []

def emptyReq : CompileRequest := ⟨[]⟩

/-- The byte vector generated for the empty compile request: just the
header (magic, version 0, moduleCount 0, modules offset 24). -/
def outEmptyC6 : List UInt8 :=
  magicBytes ++ [0, 0, 0, 0] ++ [0, 0, 0, 0] ++ [24, 0, 0, 0, 0, 0, 0, 0]

/-- One translation unit carrying no IR module. -/
def reqC10 : CompileRequest := ⟨[⟨none⟩]⟩

/-- The byte vector generated for `reqC10`: the header (magic, version 0,
moduleCount 1, modules offset 24) followed by one zeroed module-pointer
slot (the null pointer of the module-less unit). -/
def outC10 : List UInt8 :=
  magicBytes ++ [0, 0, 0, 0] ++ [1, 0, 0, 0] ++ [24, 0, 0, 0, 0, 0, 0, 0]
    ++ [0, 0, 0, 0, 0, 0, 0, 0]

def shC10 : ContainerShadow := ⟨0, 1, [none]⟩

/-- A function with no basic blocks (witness input for the register
accounting). -/
def funcEmptyC7 : IRGlobalValueData := ⟨5, kIROp_Func, none, none, []⟩

/-- The `BCFunc` shadow generated for `funcEmptyC7`. -/
def shEmptyC7 : BCSymbolShadow :=
  { op := kIROp_Func, typeID := 0, regCount := 0, regs := [], blockCount := 0,
    blocks := [], constCount := 0, consts := [], code := [] }

/-! ## Frameworks for the general theorems -/

section Frameworks

variable {I I1 I2 : DictImpl}

/-- The computation leaves the shared arena untouched. -/
def BytecodeFixed {α : Type} (m : GenM I α) : Prop :=
  ∀ s a s', m s = .ok (a, s') → s'.bytecode = s.bytecode

/-- The computation can only extend the arena and overwrite bytes at
offsets at least 12: the first twelve arena bytes survive it. -/
def Preserves12 {α : Type} (m : GenM I α) : Prop :=
  ∀ s a s', m s = .ok (a, s') → 12 ≤ s.bytecode.length →
    12 ≤ s'.bytecode.length ∧ s'.bytecode.take 12 = s.bytecode.take 12

/-- Two dictionary states (over possibly different implementations) with
the same lookup behavior. -/
def DRel (I1 I2 : DictImpl) {κ ν : Type} [DecidableEq κ]
    (d1 : I1.D κ ν) (d2 : I2.D κ ν) : Prop :=
  ∀ k, I1.find? d1 k = I2.find? d2 k

/-- Generation states over two dictionary implementations that agree on
all data and whose dictionaries have the same lookup behavior. -/
structure SRel (I1 I2 : DictImpl) (s1 : GenState I1) (s2 : GenState I2) : Prop where
  bytecode : s1.bytecode = s2.bytecode
  mapValueToGlobal : DRel I1 I2 s1.mapValueToGlobal s2.mapValueToGlobal
  bcTypes : s1.bcTypes = s2.bcTypes
  mapTypeToID : DRel I1 I2 s1.mapTypeToID s2.mapTypeToID
  constants : s1.constants = s2.constants
  currentBytecode : s1.currentBytecode = s2.currentBytecode
  remappedGlobalSymbols : s1.remappedGlobalSymbols = s2.remappedGlobalSymbols
  mapInstToLocalID : DRel I1 I2 s1.mapInstToLocalID s2.mapInstToLocalID

/-- The two runs of one computation over two dictionary implementations
stay in lock-step: related input states give either the same error or
equal results with related output states. -/
def ERel (I1 I2 : DictImpl) {α : Type} (m1 : GenM I1 α) (m2 : GenM I2 α) : Prop :=
  ∀ s1 s2, SRel I1 I2 s1 s2 →
    match m1 s1, m2 s2 with
    | .ok (a1, t1), .ok (a2, t2) => a1 = a2 ∧ SRel I1 I2 t1 t2
    | .error e1, .error e2 => e1 = e2
    | _, _ => False

end Frameworks

/-! # Theorems -/

section RunLemmas

variable {I : DictImpl}

theorem run_bind {α β : Type} (m : GenM I α) (f : α → GenM I β) (s : GenState I) :
    (m >>= f) s = match m s with
      | .ok (a, s') => f a s'
      | .error e => .error e := rfl

theorem run_pure {α : Type} (a : α) (s : GenState I) :
    (pure a : GenM I α) s = .ok (a, s) := rfl

theorem run_throwG {α : Type} (e : GenErr) (s : GenState I) :
    (throwG e : GenM I α) s = .error e := rfl

/-- Inversion for a bind that produced a success. -/
theorem bind_ok {α β : Type} {m : GenM I α} {f : α → GenM I β} {s : GenState I}
    {b : β} {s'' : GenState I} (h : (m >>= f) s = .ok (b, s'')) :
    ∃ a s', m s = .ok (a, s') ∧ f a s' = .ok (b, s'') := by
  rw [run_bind] at h
  cases hm : m s with
  | ok v =>
    obtain ⟨a, s'⟩ := v
    rw [hm] at h
    exact ⟨a, s', rfl, h⟩
  | error e => rw [hm] at h; cases h

end RunLemmas

section EncoderLemmas

variable {I : DictImpl}

theorem encodeUInt8_run (b : UInt8) (s : GenState I) :
    encodeUInt8 b s = .ok ((), { s with currentBytecode := s.currentBytecode ++ [b] }) := rfl

theorem emitBytes_ok (bs : List UInt8) (s : GenState I) :
    emitBytes bs s = .ok ((), { s with currentBytecode := s.currentBytecode ++ bs }) := by
  induction bs generalizing s with
  | nil => simp [emitBytes, run_pure]
  | cons b bs ih =>
    simp [emitBytes, run_bind, encodeUInt8_run, ih]

theorem encodeUInt_ok (v : Nat) (s : GenState I) :
    ∃ bs, encodeUInt v s = .ok ((), { s with currentBytecode := s.currentBytecode ++ bs }) := by
  unfold encodeUInt
  by_cases h : v < 128
  · exact ⟨[UInt8.ofNat v], by rw [if_pos h, encodeUInt8_run]⟩
  · exact ⟨(uintGroups 16 v).reverse, by rw [if_neg h, emitBytes_ok]⟩

theorem encodeSInt_ok (v : Int) (s : GenState I) :
    ∃ bs, encodeSInt v s = .ok ((), { s with currentBytecode := s.currentBytecode ++ bs }) := by
  unfold encodeSInt
  exact encodeUInt_ok _ s

/-- Resolution of a fresh `IntLit` operand through the constants path of
`getGlobalValue`: it is appended to the pending constant pool and mapped
to a fresh constant id. -/
theorem getGlobalValue_fresh_intlit (s : GenState I) (v : OperandRef)
    (hglobal : I.find? s.mapValueToGlobal v.oid = none)
    (hop : v.op = kIROp_IntLit) :
    getGlobalValue v s = .ok (⟨.constant, s.constants.length⟩,
      { s with constants := s.constants ++ [v],
               mapValueToGlobal := I.add s.mapValueToGlobal v.oid
                 ⟨.constant, s.constants.length⟩ }) := by
  simp only [getGlobalValue, run_bind, findValueToGlobal, hglobal, hop, if_pos,
    getConstants, pushConstant, addValueToGlobal, run_pure]

/-- Resolution of a fresh `IntLit` operand through `getLocalID`: the
reference is imported (appended to `remappedGlobalSymbols`) and receives
the negative local id `~index`. -/
theorem getLocalID_fresh_intlit (s : GenState I) (v : OperandRef)
    (hlocal : I.find? s.mapInstToLocalID v.oid = none)
    (hglobal : I.find? s.mapValueToGlobal v.oid = none)
    (hop : v.op = kIROp_IntLit) :
    getLocalID v s = .ok (-(s.remappedGlobalSymbols.length + 1),
      { s with constants := s.constants ++ [v],
               mapValueToGlobal := I.add s.mapValueToGlobal v.oid
                 ⟨.constant, s.constants.length⟩,
               remappedGlobalSymbols := s.remappedGlobalSymbols ++
                 [(⟨.constant, s.constants.length⟩ : BCConst)],
               mapInstToLocalID := I.add s.mapInstToLocalID v.oid
                 (-(s.remappedGlobalSymbols.length + 1)) }) := by
  simp only [getLocalID, run_bind, findInstLocalID, hlocal]
  rw [getGlobalValue_fresh_intlit s v hglobal hop]
  simp only [getRemapped, run_bind, pushRemapped, addInstLocalID, run_pure]

/-- The zig-zag encoding of `-1` is `uvar(1)`, the single byte `01`. -/
theorem encodeSInt_neg_one (s : GenState I) :
    encodeSInt (-1) s =
      .ok ((), { s with currentBytecode := s.currentBytecode ++ [0x01] }) := rfl

end EncoderLemmas

/-! ## Claim C1 -/

/-- Claim C1: the claim states that for v >= 128 `encodeUInt` emits
big-endian 7-bit groups with the continuation bit set on every byte but
the last, giving `uvar(128) = 81 00` and `uvar(16384) = 81 80 00`.  The
code disagrees: it sets the continuation bit on every *stored* group
except the last stored (the most significant), so after the reversal the
continuation bits land on every emitted byte except the *first*:
`uvar(128) = 01 80` and `uvar(16384) = 01 80 80`.  (The one-byte cases
`uvar(0)=00` and `uvar(127)=7F` do hold.)  This theorem evaluates the
translated code at those inputs. -/
theorem claim_C1_encodeUInt_bytes :
    runEncode (encodeUInt 0) = [0x00] ∧
    runEncode (encodeUInt 127) = [0x7F] ∧
    runEncode (encodeUInt 128) = [0x01, 0x80] ∧
    runEncode (encodeUInt 128) ≠ [0x81, 0x00] ∧
    runEncode (encodeUInt 16384) = [0x01, 0x80, 0x80] := by
  refine ⟨by decide, by decide, by decide, by decide, by decide⟩

/-! ## Claim C4 -/

/-- Claim C4: the claim states that interning a null `Type*` through
`emitBCType`/`getTypeID` succeeds and yields the void record.  In the
code the null check sits in `emitBCTypeImpl` (whose null branch indeed
produces the void record, second conjunct), but `emitBCType` first runs
`type->GetCanonicalType()` on the null pointer, so the interning entry
points never reach that branch on a null type: they are undefined
behavior (modelled as the `nullDereference` error, first and third
conjuncts). -/
theorem claim_C4_null_type_interning :
    getTypeID (I := alImpl) none (initState alImpl) = .error .nullDereference ∧
    emitBCType (I := alImpl) none (initState alImpl) = .error .nullDereference ∧
    (emitBCTypeImplF (I := alImpl) 1 none (initState alImpl)).map
        (fun p => (p.1.op, p.1.id)) = .ok (kIROp_VoidType, 0) := by
  refine ⟨rfl, rfl, rfl⟩

/-! ## Claim C5 -/

/-- Claim C5: the claim states that the first imported constant reference
(local id `~0 = -1`) encodes as `svar(-1) = uvar(3)`, one byte `03`.
The code's zig-zag of `-1` is `(~UInt(-1) << 1) | 1 = 1`, so the operand
byte is `01`, not `03` (`uvar(3)` would be zig-zag of `-2`). -/
theorem claim_C5_counterexample :
    runEncode (encodeOperand litRefC5) = [0x01] ∧
    runEncode (encodeOperand litRefC5) ≠ [0x03] := by
  exact ⟨by decide, by decide⟩

/-- Claim C5 (amended): for a function body whose first imported
global/constant reference is constant id 0 (local id `~0 = -1`), the
encoded operand is `svar(-1) = uvar(1)`, the single byte `01`. -/
theorem claim_C5_first_import_encoding {I : DictImpl} (s : GenState I) (v : OperandRef)
    (hlocal : I.find? s.mapInstToLocalID v.oid = none)
    (hglobal : I.find? s.mapValueToGlobal v.oid = none)
    (hop : v.op = kIROp_IntLit)
    (hconsts : s.constants = [])
    (hremap : s.remappedGlobalSymbols = []) :
    match encodeOperand v s with
    | .ok (_, s') =>
        s'.currentBytecode = s.currentBytecode ++ [0x01] ∧
        s'.remappedGlobalSymbols = [⟨.constant, 0⟩] ∧
        s'.constants = [v]
    | .error _ => False := by
  have h1 := getLocalID_fresh_intlit s v hlocal hglobal hop
  rw [hremap] at h1
  simp only [List.length_nil, Nat.cast_zero, zero_add, List.nil_append] at h1
  unfold encodeOperand
  rw [run_bind, h1]
  simp only [show (-(0 + 1) : Int) = -1 by norm_num, encodeSInt_neg_one, hconsts]
  simp

/-- Witness for `claim_C5_first_import_encoding` at `litRefC5` in the
fresh context. -/
theorem claim_C5_first_import_encoding_witness :
    match encodeOperand litRefC5 (initState alImpl) with
    | .ok (_, s') =>
        s'.currentBytecode = (initState alImpl).currentBytecode ++ [0x01] ∧
        s'.remappedGlobalSymbols = [⟨.constant, 0⟩] ∧
        s'.constants = [litRefC5]
    | .error _ => False :=
  claim_C5_first_import_encoding (initState alImpl) litRefC5 rfl rfl rfl rfl rfl

/-! ## Claim C2 -/

set_option maxHeartbeats 8000000 in
set_option maxRecDepth 8000 in
/-- Claim C2: the claim states that a function whose entry block is
`IntLit 42 : int32` then `ReturnVoid` emits exactly `07 00 2A 03` (no
destination operand, "because operand(self) resolves via the constants
path") and leaves one entry in the module constant pool.  The code
disagrees: the register-allocation pass assigns the block-resident
`IntLit` register 0 and binds it in the local-id map, so `operand(self)`
resolves through the *local* path, a destination byte `svar(0) = 00` is
emitted, the bytes are `07 00 2A 00 03`, and the constant pool stays
empty. -/
theorem claim_C2_counterexample :
    codeC2 = [0x07, 0x00, 0x2A, 0x00, 0x03] ∧
    codeC2 ≠ [0x07, 0x00, 0x2A, 0x03] ∧
    constantsC2 = [] := by
  refine ⟨?_, ?_, ?_⟩ <;>
  simp [codeC2, constantsC2, funcGenC2,
    generateBytecodeSymbolForInst, withFreshLocals, resetLocals, enumBlocks, countPass, blockCounts,
    fillBlocks, fillInsts, emitBlocks, emitInsts, generateBytecodeForInst, mkBlockShadows,
    encodeUInt, encodeUInt8, encodeSInt, encodeOperand, encodeTypeOperand,
    encodeOperandList, emitBytes, uintGroups, toUInt64N, getTypeID,
    getTypeIDForGlobalSymbol, emitBCType, emitBCTypeF, emitBCTypeImplF, emitBCTypeListF,
    emitBCTypeRecord, emitBCTypeOp, emitBCVarArgType, getGlobalValue, getLocalID,
    findValueToGlobal, addValueToGlobal, findTypeToID, getBCTypes, registerType,
    getConstants, pushConstant, getRemapped, pushRemapped, findInstLocalID,
    addInstLocalID, getCurrentCode, storeBytesAt, storeBytes, storeByte, allocateRaw,
    alignUp, allocateString, tryGenerateNameForSymbol, opHasResult, selfOperand,
    getOperand, run_bind, run_pure, run_throwG, initState, alImpl, alFind?,
    GetCanonicalType, tyFuelOpt, tyFuel, tyListFuel, leBytes, throwG,
    kIROp_IntLit, kIROp_ReturnVoid, kIROp_FloatLit, kIROp_boolConst, kIROp_Store,
    kIROp_Load, kIROp_Param, kIROp_Var, kIROp_Func, kIROp_global_var,
    kIROp_global_constant, kIROp_VoidType, kIROp_BoolType, kIROp_Int32Type,
    sizeofBCType, sizeofBCPtr, sizeofBCFunc, alignofBCFunc, sizeofBCBlock,
    alignofBCBlock, sizeofBCReg, alignofBCReg, sizeofBCConst, alignofBCConst,
    int32, intLitC2, retVoidC2, funcC2]

set_option maxHeartbeats 8000000 in
set_option maxRecDepth 8000 in
/-- Claim C2 (amended): for `funcC2` the emitted instruction bytes are
`07 00 2A 00 03`: the `IntLit` in the entry block receives register 0
(the function's single register), its destination operand is emitted
through the local path as `svar(0) = 00`, and the module constant pool
stays empty. -/
theorem claim_C2_intlit_block_encoding :
    codeC2 = [0x07, 0x00,
      0x2A, 0x00, 0x03] ∧ regCountC2 = 1 ∧ constantsC2 = [] := by
  refine ⟨?_, ?_, ?_⟩ <;>
  simp [codeC2, constantsC2, regCountC2, funcGenC2,
    generateBytecodeSymbolForInst, withFreshLocals, resetLocals, enumBlocks, countPass, blockCounts,
    fillBlocks, fillInsts, emitBlocks, emitInsts, generateBytecodeForInst, mkBlockShadows,
    encodeUInt, encodeUInt8, encodeSInt, encodeOperand, encodeTypeOperand,
    encodeOperandList, emitBytes, uintGroups, toUInt64N, getTypeID,
    getTypeIDForGlobalSymbol, emitBCType, emitBCTypeF, emitBCTypeImplF, emitBCTypeListF,
    emitBCTypeRecord, emitBCTypeOp, emitBCVarArgType, getGlobalValue, getLocalID,
    findValueToGlobal, addValueToGlobal, findTypeToID, getBCTypes, registerType,
    getConstants, pushConstant, getRemapped, pushRemapped, findInstLocalID,
    addInstLocalID, getCurrentCode, storeBytesAt, storeBytes, storeByte, allocateRaw,
    alignUp, allocateString, tryGenerateNameForSymbol, opHasResult, selfOperand,
    getOperand, run_bind, run_pure, run_throwG, initState, alImpl, alFind?,
    GetCanonicalType, tyFuelOpt, tyFuel, tyListFuel, leBytes, throwG,
    kIROp_IntLit, kIROp_ReturnVoid, kIROp_FloatLit, kIROp_boolConst, kIROp_Store,
    kIROp_Load, kIROp_Param, kIROp_Var, kIROp_Func, kIROp_global_var,
    kIROp_global_constant, kIROp_VoidType, kIROp_BoolType, kIROp_Int32Type,
    sizeofBCType, sizeofBCPtr, sizeofBCFunc, alignofBCFunc, sizeofBCBlock,
    alignofBCBlock, sizeofBCReg, alignofBCReg, sizeofBCConst, alignofBCConst,
    int32, intLitC2, retVoidC2, funcC2]

/-! ## Claim C3 -/

set_option maxHeartbeats 8000000 in
set_option maxRecDepth 8000 in
/-- Claim C3: the claim states that an IR module with no global
instructions always yields a module record with `symbolCount = 0`,
`constantCount = 0` and `typeCount = 0`, regardless of its position in
the compile request and of what earlier modules emitted.  The code
disagrees: the constant list and the type table live in the *shared*
context and are never reset between modules, and the module record reads
their accumulated totals.  In `reqC3` the first module interns one type
(the `int32` of its global variable), so the second, empty module gets
`typeCount = 1`, not 0. -/
theorem claim_C3_counterexample :
    (reqC3.translationUnits.getD 1 ⟨none⟩).irModule = some ⟨[]⟩ ∧
    module2C3.map BCModuleShadow.symbolCount = some 0 ∧
    module2C3.map BCModuleShadow.typeCount = some 1 ∧
    module2C3.map BCModuleShadow.typeCount ≠ some 0 := by
  refine ⟨rfl, ?_, ?_, ?_⟩ <;>
  simp [module2C3, genC3, generateBytecodeForCompileRequest, generateBytecodeContainer,
    genModulesLoop, generateBytecodeForModule, preAssignGlobals, emitSymbols,
    emitConstants, generateBytecodeSymbolForInst, withFreshLocals, resetLocals, enumBlocks, countPass,
    blockCounts, fillBlocks, fillInsts, emitBlocks, emitInsts, generateBytecodeForInst,
    mkBlockShadows, encodeUInt, encodeUInt8, encodeSInt, encodeOperand,
    encodeTypeOperand, encodeOperandList, emitBytes, uintGroups, toUInt64N, getTypeID,
    getTypeIDForGlobalSymbol, emitBCType, emitBCTypeF, emitBCTypeImplF, emitBCTypeListF,
    emitBCTypeRecord, emitBCTypeOp, emitBCVarArgType, getGlobalValue, getLocalID,
    findValueToGlobal, addValueToGlobal, findTypeToID, getBCTypes, registerType,
    getConstants, pushConstant, getRemapped, pushRemapped, findInstLocalID,
    addInstLocalID, getCurrentCode, storeBytesAt, storeBytes, storeByte, allocateRaw,
    alignUp, allocateString, tryGenerateNameForSymbol, opHasResult, selfOperand,
    getOperand, run_bind, run_pure, run_throwG, initState, alImpl, alFind?,
    GetCanonicalType, tyFuelOpt, tyFuel, tyListFuel, leBytes, magicBytes, throwG,
    kIROp_IntLit, kIROp_ReturnVoid, kIROp_FloatLit, kIROp_boolConst, kIROp_Store,
    kIROp_Load, kIROp_Param, kIROp_Var, kIROp_Func, kIROp_global_var,
    kIROp_global_constant, kIROp_VoidType, kIROp_BoolType, kIROp_Int32Type,
    sizeofBCType, sizeofBCPtr, sizeofBCFunc, alignofBCFunc, sizeofBCBlock,
    alignofBCBlock, sizeofBCReg, alignofBCReg, sizeofBCConst, alignofBCConst,
    sizeofBCModule, alignofBCModule, sizeofBCSymbol, alignofBCSymbol,
    sizeofBCConstant, alignofBCConstant, sizeofBCHeader, alignofBCHeader,
    sizeofIRIntegerValue, int32, gvarC3, reqC3]

/-- Claim C3 (amended): a module with no global instructions yields
`symbolCount = 0` always, and `constantCount = 0` and `typeCount = 0`
exactly when the shared context holds no accumulated constants or types
when the module is processed (e.g. when no earlier module in the same
generate call emitted any). -/
theorem claim_C3_empty_module_counts {I : DictImpl} (m : IRModuleData) (s : GenState I)
    (hm : m.globalInsts = [])
    (hconsts : s.constants = [])
    (htypes : s.bcTypes = []) :
    match generateBytecodeForModule (some m) s with
    | .ok (some sh, _) =>
        sh.symbolCount = 0 ∧ sh.constantCount = 0 ∧ sh.typeCount = 0
    | _ => False := by
  simp only [generateBytecodeForModule, hm, preAssignGlobals, emitSymbols,
    emitConstants, run_bind, run_pure, allocateRaw, getConstants, getBCTypes,
    hconsts, htypes]
  simp [hconsts, htypes]

/-- Witness for `claim_C3_empty_module_counts`: the empty module processed
in a fresh context. -/
theorem claim_C3_empty_module_counts_witness :
    match generateBytecodeForModule (I := alImpl) (some ⟨[]⟩) (initState alImpl) with
    | .ok (some sh, _) =>
        sh.symbolCount = 0 ∧ sh.constantCount = 0 ∧ sh.typeCount = 0
    | _ => False :=
  claim_C3_empty_module_counts ⟨[]⟩ (initState alImpl) rfl rfl rfl

/-! ## Claim C6: arena-prefix machinery -/

section Prefix12

variable {I : DictImpl}

theorem storeByte_length (l : List UInt8) (n : Nat) (b : UInt8) :
    (storeByte l n b).length = l.length := by
  induction l generalizing n with
  | nil => rfl
  | cons h t ih =>
    cases n with
    | zero => rfl
    | succ m => simp [storeByte, ih]

theorem take_storeByte (l : List UInt8) (n k : Nat) (b : UInt8) (h : k ≤ n) :
    (storeByte l n b).take k = l.take k := by
  induction l generalizing n k with
  | nil => rfl
  | cons hd t ih =>
    cases n with
    | zero =>
      have hk : k = 0 := Nat.le_zero.mp h
      subst hk; rfl
    | succ m =>
      cases k with
      | zero => rfl
      | succ j =>
        simp only [storeByte, List.take_succ_cons]
        rw [ih m j (Nat.le_of_succ_le_succ h)]

theorem storeBytes_length (bs : List UInt8) (l : List UInt8) (off : Nat) :
    (storeBytes l off bs).length = l.length := by
  induction bs generalizing l off with
  | nil => rfl
  | cons b bs ih => simp [storeBytes, ih, storeByte_length]

theorem take_storeBytes (bs : List UInt8) (l : List UInt8) (off k : Nat) (h : k ≤ off) :
    (storeBytes l off bs).take k = l.take k := by
  induction bs generalizing l off with
  | nil => rfl
  | cons b bs ih =>
    show (storeBytes (storeByte l off b) (off + 1) bs).take k = _
    rw [ih (storeByte l off b) (off + 1) (Nat.le_succ_of_le h),
      take_storeByte l off k b h]

theorem alignUp_ge (c a : Nat) (ha : 0 < a) : c ≤ alignUp c a := by
  unfold alignUp
  have hdm := Nat.div_add_mod (c + (a - 1)) a
  have hlt : (c + (a - 1)) % a < a := Nat.mod_lt _ ha
  rw [Nat.mul_comm]
  omega

end Prefix12

section PresLemmas

variable {I : DictImpl}

theorem bfix_pure {α : Type} (a : α) : BytecodeFixed (pure a : GenM I α) := by
  intro s b s' h
  rw [run_pure] at h
  injection h with h
  injection h with h1 h2
  rw [← h2]

theorem bfix_throwG {α : Type} (e : GenErr) : BytecodeFixed (throwG e : GenM I α) := by
  intro s b s' h
  cases h

theorem bfix_bind {α β : Type} {m : GenM I α} {f : α → GenM I β}
    (hm : BytecodeFixed m) (hf : ∀ a, BytecodeFixed (f a)) :
    BytecodeFixed (m >>= f) := by
  intro s b s'' h
  obtain ⟨a, s', h1, h2⟩ := bind_ok h
  rw [hf a s' b s'' h2, hm s a s' h1]

theorem pres_of_bfix {α : Type} {m : GenM I α} (h : BytecodeFixed m) : Preserves12 m := by
  intro s a s' hrun h12
  rw [h s a s' hrun]
  exact ⟨h12, rfl⟩

theorem pres_pure {α : Type} (a : α) : Preserves12 (pure a : GenM I α) :=
  pres_of_bfix (bfix_pure a)

theorem pres_throwG {α : Type} (e : GenErr) : Preserves12 (throwG e : GenM I α) :=
  pres_of_bfix (bfix_throwG e)

theorem pres_bind {α β : Type} {m : GenM I α} {f : α → GenM I β}
    (hm : Preserves12 m) (hf : ∀ a, Preserves12 (f a)) :
    Preserves12 (m >>= f) := by
  intro s b s'' h h12
  obtain ⟨a, s', h1, h2⟩ := bind_ok h
  obtain ⟨hl1, ht1⟩ := hm s a s' h1 h12
  obtain ⟨hl2, ht2⟩ := hf a s' b s'' h2 hl1
  exact ⟨hl2, ht2.trans ht1⟩

/-- allocateRaw only appends, and the offset it returns is at least the
old length. -/
theorem allocateRaw_spec (size align : Nat) (s : GenState I) :
    allocateRaw size align s = .ok (alignUp s.bytecode.length align,
      { s with bytecode := s.bytecode ++
          List.replicate (alignUp s.bytecode.length align + size - s.bytecode.length) 0 }) := rfl

theorem pres_allocateRaw (size align : Nat) :
    Preserves12 (allocateRaw (I := I) size align) := by
  intro s a s' h h12
  rw [allocateRaw_spec] at h
  injection h with h
  injection h with h1 h2
  subst h2
  constructor
  · simp
    omega
  · rw [List.take_append_of_le_length h12]

theorem storeBytesAt_run (off : Nat) (bs : List UInt8) (s : GenState I) :
    storeBytesAt off bs s = .ok ((), { s with bytecode := storeBytes s.bytecode off bs }) := rfl

theorem pres_storeBytesAt (off : Nat) (bs : List UInt8) (hoff : 12 ≤ off) :
    Preserves12 (storeBytesAt (I := I) off bs) := by
  intro s a s' h h12
  rw [storeBytesAt_run] at h
  injection h with h
  injection h with h1 h2
  subst h2
  exact ⟨by simp [storeBytes_length, h12], by rw [take_storeBytes bs s.bytecode off 12 hoff]⟩

/-- allocateRaw followed by a continuation that may store at the returned
offset: when the arena already holds the 12 header bytes, the returned
offset is at least 12. -/
theorem pres_alloc_then {β : Type} (size align : Nat) (halign : 0 < align)
    (f : Nat → GenM I β) (hf : ∀ off, 12 ≤ off → Preserves12 (f off)) :
    Preserves12 (allocateRaw size align >>= f) := by
  intro s b s'' h h12
  obtain ⟨off, s1, h1, h2⟩ := bind_ok h
  rw [allocateRaw_spec] at h1
  injection h1 with h1
  injection h1 with ha hb
  subst hb
  subst ha
  have hoff : 12 ≤ alignUp s.bytecode.length align :=
    le_trans h12 (alignUp_ge _ _ halign)
  have hl1 : 12 ≤ (s.bytecode ++
      List.replicate (alignUp s.bytecode.length align + size - s.bytecode.length) 0).length := by
    simp
    omega
  obtain ⟨hl2, ht2⟩ := hf _ hoff _ b s'' h2 hl1
  refine ⟨hl2, ht2.trans ?_⟩
  exact List.take_append_of_le_length h12

theorem bfix_encodeUInt8 (b : UInt8) : BytecodeFixed (encodeUInt8 (I := I) b) := by
  intro s a s' h
  injection h with h
  injection h with h1 h2
  rw [← h2]

theorem bfix_emitBytes (bs : List UInt8) : BytecodeFixed (emitBytes (I := I) bs) := by
  intro s a s' h
  rw [emitBytes_ok] at h
  injection h with h
  injection h with h1 h2
  rw [← h2]

theorem bfix_encodeUInt (v : Nat) : BytecodeFixed (encodeUInt (I := I) v) := by
  intro s a s' h
  obtain ⟨bs, hok⟩ := encodeUInt_ok (I := I) v s
  rw [hok] at h
  injection h with h
  injection h with h1 h2
  rw [← h2]

theorem bfix_encodeSInt (v : Int) : BytecodeFixed (encodeSInt (I := I) v) := by
  intro s a s' h
  obtain ⟨bs, hok⟩ := encodeSInt_ok (I := I) v s
  rw [hok] at h
  injection h with h
  injection h with h1 h2
  rw [← h2]

theorem bfix_findValueToGlobal (k : Nat) : BytecodeFixed (findValueToGlobal (I := I) k) := by
  intro s a s' h
  injection h with h
  injection h with h1 h2
  rw [← h2]

theorem bfix_addValueToGlobal (k : Nat) (v : BCConst) :
    BytecodeFixed (addValueToGlobal (I := I) k v) := by
  intro s a s' h
  injection h with h
  injection h with h1 h2
  rw [← h2]

theorem bfix_findTypeToID (k : Option Ty) : BytecodeFixed (findTypeToID (I := I) k) := by
  intro s a s' h
  injection h with h
  injection h with h1 h2
  rw [← h2]

theorem bfix_getBCTypes : BytecodeFixed (getBCTypes (I := I)) := by
  intro s a s' h
  injection h with h
  injection h with h1 h2
  rw [← h2]

theorem bfix_registerType (k : Option Ty) (id : Nat) (sh : BCTypeShadow) :
    BytecodeFixed (registerType (I := I) k id sh) := by
  intro s a s' h
  injection h with h
  injection h with h1 h2
  rw [← h2]

theorem bfix_getConstants : BytecodeFixed (getConstants (I := I)) := by
  intro s a s' h
  injection h with h
  injection h with h1 h2
  rw [← h2]

theorem bfix_pushConstant (v : OperandRef) : BytecodeFixed (pushConstant (I := I) v) := by
  intro s a s' h
  injection h with h
  injection h with h1 h2
  rw [← h2]

theorem bfix_getRemapped : BytecodeFixed (getRemapped (I := I)) := by
  intro s a s' h
  injection h with h
  injection h with h1 h2
  rw [← h2]

theorem bfix_pushRemapped (v : BCConst) : BytecodeFixed (pushRemapped (I := I) v) := by
  intro s a s' h
  injection h with h
  injection h with h1 h2
  rw [← h2]

theorem bfix_findInstLocalID (k : Nat) : BytecodeFixed (findInstLocalID (I := I) k) := by
  intro s a s' h
  injection h with h
  injection h with h1 h2
  rw [← h2]

theorem bfix_addInstLocalID (k : Nat) (v : Int) :
    BytecodeFixed (addInstLocalID (I := I) k v) := by
  intro s a s' h
  injection h with h
  injection h with h1 h2
  rw [← h2]

theorem bfix_getCurrentCode : BytecodeFixed (getCurrentCode (I := I)) := by
  intro s a s' h
  injection h with h
  injection h with h1 h2
  rw [← h2]

theorem bfix_getGlobalValue (v : OperandRef) : BytecodeFixed (getGlobalValue (I := I) v) := by
  refine bfix_bind (bfix_findValueToGlobal _) fun a => ?_
  match a with
  | some bc => exact bfix_pure _
  | none =>
    show BytecodeFixed (if v.op = kIROp_IntLit then _ else _)
    split
    · refine bfix_bind bfix_getConstants fun cs => ?_
      refine bfix_bind (bfix_pushConstant _) fun _ => ?_
      exact bfix_bind (bfix_addValueToGlobal _ _) fun _ => bfix_pure _
    · exact bfix_throwG _

theorem bfix_getLocalID (v : OperandRef) : BytecodeFixed (getLocalID (I := I) v) := by
  refine bfix_bind (bfix_findInstLocalID _) fun a => ?_
  match a with
  | some id => exact bfix_pure _
  | none =>
    refine bfix_bind (bfix_getGlobalValue _) fun bc => ?_
    refine bfix_bind bfix_getRemapped fun rs => ?_
    refine bfix_bind (bfix_pushRemapped _) fun _ => ?_
    exact bfix_bind (bfix_addInstLocalID _ _) fun _ => bfix_pure _

theorem bfix_encodeOperand (v : OperandRef) : BytecodeFixed (encodeOperand (I := I) v) :=
  bfix_bind (bfix_getLocalID v) fun id => bfix_encodeSInt id

theorem bfix_encodeOperandList (os : List OperandRef) :
    BytecodeFixed (encodeOperandList (I := I) os) := by
  induction os with
  | nil => exact bfix_pure _
  | cons o os ih =>
    exact bfix_bind (bfix_encodeOperand o) fun _ => ih

theorem bfix_enumBlocks (bs : List IRBlockData) (n : Nat) :
    BytecodeFixed (enumBlocks (I := I) bs n) := by
  induction bs generalizing n with
  | nil => exact bfix_pure _
  | cons b bs ih =>
    exact bfix_bind (bfix_addInstLocalID _ _) fun _ => ih (n + 1)

theorem bfix_preAssignGlobals (items : List GlobalItem) (n : Nat) :
    BytecodeFixed (preAssignGlobals (I := I) items n) := by
  induction items generalizing n with
  | nil => exact bfix_pure _
  | cons it rest ih =>
    cases it with
    | notGV iid op => exact ih n
    | gv g =>
      refine bfix_bind (bfix_addValueToGlobal _ _) fun _ => ?_
      exact bfix_bind (bfix_addInstLocalID _ _) fun _ => ih (n + 1)

theorem pres_emitBCTypeRecord (k : Option Ty) (op : Nat) (args : List Nat) :
    Preserves12 (emitBCTypeRecord (I := I) k op args) := by
  unfold emitBCTypeRecord
  refine pres_bind (pres_allocateRaw _ _) fun off => ?_
  refine pres_bind (pres_of_bfix bfix_getBCTypes) fun l => ?_
  exact pres_bind (pres_of_bfix (bfix_registerType _ _ _)) fun _ => pres_pure _

theorem pres_emitBCVarArgType (k : Option Ty) (op : Nat) (args : List Nat) :
    Preserves12 (emitBCVarArgType (I := I) k op args) :=
  pres_emitBCTypeRecord k op args

theorem pres_emitBCTypeOp (k : Option Ty) (op : Nat) :
    Preserves12 (emitBCTypeOp (I := I) k op) :=
  pres_emitBCTypeRecord k op []

theorem pres_emitBCTypeAll : ∀ fuel : Nat,
    (∀ t? : Option Ty, Preserves12 (emitBCTypeF (I := I) fuel t?)) ∧
    (∀ t? : Option Ty, Preserves12 (emitBCTypeImplF (I := I) fuel t?)) ∧
    (∀ ts : TyList, Preserves12 (emitBCTypeListF (I := I) fuel ts)) := by
  intro fuel
  induction fuel with
  | zero => exact ⟨fun _ => pres_throwG _, fun _ => pres_throwG _, fun _ => pres_throwG _⟩
  | succ n ih =>
    obtain ⟨ihF, ihImpl, ihList⟩ := ih
    refine ⟨fun t? => ?_, fun t? => ?_, fun ts => ?_⟩
    · match t? with
      | none => exact pres_throwG _
      | some t =>
        rw [emitBCTypeF]
        refine pres_bind (pres_of_bfix (bfix_findTypeToID _)) fun a => ?_
        match a with
        | some id =>
          exact pres_bind (pres_of_bfix bfix_getBCTypes) fun _ => pres_pure _
        | none => exact ihImpl _
    · match t? with
      | none => exact pres_emitBCTypeOp _ _
      | some t =>
        rw [emitBCTypeImplF.eq_def]
        match t with
        | .basic b =>
          match b with
          | .Void => exact pres_emitBCTypeOp _ _
          | .Bool => exact pres_emitBCTypeOp _ _
          | .Int => exact pres_emitBCTypeOp _ _
          | .UInt => exact pres_emitBCTypeOp _ _
          | .UInt64 => exact pres_emitBCTypeOp _ _
          | .Half => exact pres_emitBCTypeOp _ _
          | .Float => exact pres_emitBCTypeOp _ _
          | .Double => exact pres_emitBCTypeOp _ _
        | .func r ps =>
          refine pres_bind (ihF _) fun rsh => ?_
          refine pres_bind (ihList _) fun args => ?_
          exact pres_emitBCVarArgType _ _ _
        | .ptr v =>
          refine pres_bind (ihF _) fun vsh => ?_
          exact pres_emitBCVarArgType _ _ _
        | .rwStructuredBuffer e =>
          refine pres_bind (ihF _) fun esh => ?_
          exact pres_emitBCVarArgType _ _ _
        | .structuredBuffer e =>
          refine pres_bind (ihF _) fun esh => ?_
          exact pres_emitBCVarArgType _ _ _
        | .unsupported _ => exact pres_throwG _
    · match ts with
      | .nil => exact pres_pure _
      | .cons h tl =>
        rw [emitBCTypeListF]
        refine pres_bind (ihF _) fun sh => ?_
        refine pres_bind (ihList _) fun rest => ?_
        exact pres_pure _

theorem pres_emitBCType (t? : Option Ty) : Preserves12 (emitBCType (I := I) t?) :=
  (pres_emitBCTypeAll _).1 t?

theorem pres_getTypeID (t? : Option Ty) : Preserves12 (getTypeID (I := I) t?) :=
  pres_bind (pres_emitBCType t?) fun bc => pres_pure _

theorem pres_getTypeIDForGlobalSymbol (t? : Option Ty) :
    Preserves12 (getTypeIDForGlobalSymbol (I := I) t?) := by
  unfold getTypeIDForGlobalSymbol
  match t? with
  | none => exact pres_pure _
  | some t => exact pres_getTypeID _

theorem pres_encodeTypeOperand (t? : Option Ty) :
    Preserves12 (encodeTypeOperand (I := I) t?) :=
  pres_bind (pres_getTypeID t?) fun id => pres_of_bfix (bfix_encodeUInt id)

theorem pres_generateBytecodeForInst (ii : IRInstData) :
    Preserves12 (generateBytecodeForInst (I := I) ii) := by
  unfold generateBytecodeForInst
  split
  · exact pres_of_bfix (bfix_encodeUInt _)
  · split
    · refine pres_bind (pres_of_bfix (bfix_encodeUInt _)) fun _ => ?_
      refine pres_bind (pres_encodeTypeOperand _) fun _ => ?_
      refine pres_bind (pres_of_bfix (bfix_encodeUInt _)) fun _ => ?_
      exact pres_of_bfix (bfix_encodeOperand _)
    · split
      · refine pres_bind (pres_of_bfix (bfix_encodeUInt _)) fun _ => ?_
        refine pres_bind (pres_encodeTypeOperand _) fun _ => ?_
        refine pres_bind (pres_of_bfix (bfix_emitBytes _)) fun _ => ?_
        exact pres_of_bfix (bfix_encodeOperand _)
      · split
        · refine pres_bind (pres_of_bfix (bfix_encodeUInt _)) fun _ => ?_
          refine pres_bind (pres_of_bfix (bfix_encodeUInt _)) fun _ => ?_
          exact pres_of_bfix (bfix_encodeOperand _)
        · split
          · refine pres_bind (pres_of_bfix (bfix_encodeUInt _)) fun _ => ?_
            refine pres_bind (pres_encodeTypeOperand _) fun _ => ?_
            refine pres_bind (pres_of_bfix (bfix_encodeOperand _)) fun _ => ?_
            exact pres_of_bfix (bfix_encodeOperand _)
          · split
            · refine pres_bind (pres_of_bfix (bfix_encodeUInt _)) fun _ => ?_
              refine pres_bind (pres_encodeTypeOperand _) fun _ => ?_
              refine pres_bind (pres_of_bfix (bfix_encodeOperand _)) fun _ => ?_
              exact pres_of_bfix (bfix_encodeOperand _)
            · refine pres_bind (pres_of_bfix (bfix_encodeUInt _)) fun _ => ?_
              refine pres_bind (pres_encodeTypeOperand _) fun _ => ?_
              refine pres_bind (pres_of_bfix (bfix_encodeUInt _)) fun _ => ?_
              refine pres_bind (pres_of_bfix (bfix_encodeOperandList _)) fun _ => ?_
              split
              · exact pres_of_bfix (bfix_encodeOperand _)
              · exact pres_pure _

theorem pres_emitInsts (insts : List IRInstData) :
    Preserves12 (emitInsts (I := I) insts) := by
  induction insts with
  | nil => exact pres_pure _
  | cons ii rest ih =>
    rw [emitInsts]
    split
    · exact pres_bind (pres_pure _) fun _ => ih
    · exact pres_bind (pres_generateBytecodeForInst ii) fun _ => ih

theorem pres_emitBlocks (blocks : List IRBlockData) :
    Preserves12 (emitBlocks (I := I) blocks) := by
  induction blocks with
  | nil => exact pres_pure _
  | cons b bs ih =>
    rw [emitBlocks]
    refine pres_bind (pres_of_bfix bfix_getCurrentCode) fun code => ?_
    refine pres_bind (pres_emitInsts _) fun _ => ?_
    exact pres_bind ih fun rest => pres_pure _

theorem pres_fillInsts (insts : List IRInstData) (n : Nat) :
    Preserves12 (fillInsts (I := I) insts n) := by
  induction insts generalizing n with
  | nil => exact pres_pure _
  | cons ii rest ih =>
    rw [fillInsts]
    split
    · refine pres_bind (pres_of_bfix (bfix_addInstLocalID _ _)) fun _ => ?_
      refine pres_bind (pres_getTypeIDForGlobalSymbol _) fun t1 => ?_
      refine pres_bind ?_ fun t2 => ?_
      · split
        · exact pres_getTypeID _
        · exact pres_throwG _
      · exact pres_bind (ih _) fun p => pres_pure _
    · split
      · refine pres_bind (pres_of_bfix (bfix_addInstLocalID _ _)) fun _ => ?_
        refine pres_bind (pres_getTypeIDForGlobalSymbol _) fun t => ?_
        exact pres_bind (ih _) fun p => pres_pure _
      · exact ih n

theorem pres_fillBlocks (blocks : List IRBlockData) (n : Nat) :
    Preserves12 (fillBlocks (I := I) blocks n) := by
  induction blocks generalizing n with
  | nil => exact pres_pure _
  | cons b bs ih =>
    rw [fillBlocks]
    refine pres_bind (pres_fillInsts _ _) fun p => ?_
    exact pres_bind (ih _) fun q => pres_pure _

theorem pres_allocateString (data : List UInt8) :
    Preserves12 (allocateString (I := I) data) := by
  unfold allocateString
  refine pres_alloc_then _ _ (by decide) _ fun off hoff => ?_
  exact pres_bind (pres_storeBytesAt _ _ hoff) fun _ => pres_pure _

theorem pres_tryGenerateNameForSymbol (g : IRGlobalValueData) :
    Preserves12 (tryGenerateNameForSymbol (I := I) g) := by
  unfold tryGenerateNameForSymbol
  split
  · exact pres_bind (pres_allocateString _) fun ptr => pres_pure _
  · exact pres_pure _

theorem pres_withFreshLocals {α : Type} {m : GenM I α} (hm : Preserves12 m) :
    Preserves12 (withFreshLocals m) := by
  intro s a s' h h12
  unfold withFreshLocals at h
  cases hr : m (resetLocals s) with
  | ok p =>
    obtain ⟨b, t⟩ := p
    rw [hr] at h
    injection h with h
    injection h with h1 h2
    subst h2
    have h12r : 12 ≤ (resetLocals s).bytecode.length := h12
    obtain ⟨hl, ht⟩ := hm (resetLocals s) b t hr h12r
    exact ⟨hl, ht⟩
  | error e => rw [hr] at h; cases h

theorem pres_generateBytecodeSymbolForInst (g : IRGlobalValueData) :
    Preserves12 (generateBytecodeSymbolForInst (I := I) g) := by
  unfold generateBytecodeSymbolForInst
  split
  · refine pres_bind (pres_allocateRaw _ _) fun o1 => ?_
    refine pres_bind (pres_getTypeIDForGlobalSymbol _) fun tid => ?_
    refine pres_withFreshLocals ?_
    refine pres_bind (pres_of_bfix (bfix_enumBlocks _ _)) fun _ => ?_
    refine pres_bind (pres_allocateRaw _ _) fun o2 => ?_
    split
    refine pres_bind (pres_allocateRaw _ _) fun o3 => ?_
    refine pres_bind (pres_fillBlocks _ _) fun fr => ?_
    refine pres_bind (pres_emitBlocks _) fun offs => ?_
    refine pres_bind (pres_of_bfix bfix_getCurrentCode) fun code => ?_
    refine pres_alloc_then _ _ (by decide) _ fun off hoff => ?_
    refine pres_bind (pres_storeBytesAt _ _ hoff) fun _ => ?_
    refine pres_bind (pres_of_bfix bfix_getRemapped) fun consts => ?_
    exact pres_bind (pres_allocateRaw _ _) fun o5 => pres_pure _
  · split
    · refine pres_bind (pres_allocateRaw _ _) fun off => ?_
      exact pres_bind (pres_getTypeID _) fun tid => pres_pure _
    · exact pres_pure _

theorem pres_emitSymbols (items : List GlobalItem) (symbols : List (Option Nat)) :
    Preserves12 (emitSymbols (I := I) items symbols) := by
  induction items generalizing symbols with
  | nil => exact pres_pure _
  | cons it rest ih =>
    cases it with
    | notGV iid op => exact ih symbols
    | gv g =>
      rw [emitSymbols]
      refine pres_bind ?_ fun idx => ?_
      · refine pres_bind (pres_of_bfix (bfix_findInstLocalID _)) fun a => ?_
        match a with
        | some i => exact pres_pure _
        | none => exact pres_throwG _
      refine pres_bind (pres_generateBytecodeSymbolForInst _) fun r => ?_
      match r with
      | none => exact ih symbols
      | some p =>
        refine pres_bind (pres_tryGenerateNameForSymbol _) fun nm => ?_
        exact ih _

theorem pres_emitConstants (cs : List OperandRef) :
    Preserves12 (emitConstants (I := I) cs) := by
  induction cs with
  | nil => exact pres_pure _
  | cons c rest ih =>
    rw [emitConstants]
    refine pres_bind (pres_getTypeID _) fun tid => ?_
    split
    · refine pres_alloc_then _ _ (by decide) _ fun off hoff => ?_
      refine pres_bind (pres_storeBytesAt _ _ hoff) fun _ => ?_
      exact pres_bind ih fun r => pres_pure _
    · exact pres_bind (pres_pure _) fun _ => pres_bind ih fun r => pres_pure _

theorem pres_generateBytecodeForModule (m? : Option IRModuleData) :
    Preserves12 (generateBytecodeForModule (I := I) m?) := by
  unfold generateBytecodeForModule
  match m? with
  | none => exact pres_pure _
  | some m =>
    refine pres_bind (pres_allocateRaw _ _) fun off => ?_
    refine pres_bind (pres_of_bfix (bfix_preAssignGlobals _ _)) fun n => ?_
    refine pres_bind (pres_allocateRaw _ _) fun o2 => ?_
    refine pres_bind (pres_emitSymbols _ _) fun syms => ?_
    refine pres_bind (pres_of_bfix bfix_getConstants) fun cs => ?_
    refine pres_bind (pres_allocateRaw _ _) fun o3 => ?_
    refine pres_bind (pres_emitConstants _) fun shs => ?_
    refine pres_bind (pres_of_bfix bfix_getBCTypes) fun ts => ?_
    exact pres_bind (pres_allocateRaw _ _) fun o4 => pres_pure _

theorem pres_genModulesLoop (units : List TranslationUnit) :
    Preserves12 (genModulesLoop (I := I) units) := by
  induction units with
  | nil => exact pres_pure _
  | cons tu rest ih =>
    rw [genModulesLoop]
    refine pres_bind (pres_generateBytecodeForModule _) fun bc => ?_
    exact pres_bind ih fun bcs => pres_pure _

end PresLemmas

/-! ## Claim C6 -/

/-- Claim C6: for every compile request, the header is allocated before
anything else and sits at arena offset 0; bytes 0..7 of the generated
byte vector are exactly `73 6C 61 6E 67 00 62 63` ("slang\0bc" with the
embedded NUL) and the version field at bytes 8..11 is 0. -/
theorem claim_C6_header_bytes {I : DictImpl} (compileReq : CompileRequest)
    (out : List UInt8) (sh : ContainerShadow)
    (hrun : generateBytecodeForCompileRequest I compileReq = .ok (out, sh)) :
    out.take 8 = magicBytes ∧ (out.drop 8).take 4 = [0, 0, 0, 0] ∧ sh.headerOff = 0 := by
  unfold generateBytecodeForCompileRequest at hrun
  cases hcont : generateBytecodeContainer (I := I) compileReq (initState I) with
  | error e => rw [hcont] at hrun; cases hrun
  | ok p =>
    obtain ⟨shadow, sEnd⟩ := p
    rw [hcont] at hrun
    injection hrun with hrun
    injection hrun with hrun1 hrun2
    subst hrun1
    subst hrun2
    unfold generateBytecodeContainer at hcont
    obtain ⟨hoff, s1, hh1, h2⟩ := bind_ok hcont
    obtain ⟨u2, s2, hh2, h3⟩ := bind_ok h2
    obtain ⟨u3, s3, hh3, h4⟩ := bind_ok h3
    obtain ⟨mods, s4, hmods, h5⟩ := bind_ok h4
    obtain ⟨u5, s5, hh5, h6⟩ := bind_ok h5
    obtain ⟨moff, s6, hh6, h7⟩ := bind_ok h6
    obtain ⟨u7, s7, hh7, h8⟩ := bind_ok h7
    rw [run_pure] at h8
    injection h8 with h8
    injection h8 with h81 h82
    subst h82
    rw [allocateRaw_spec] at hh1
    injection hh1 with hh1
    injection hh1 with ha1 hb1
    have hoff0 : hoff = 0 := by
      rw [← ha1]
      simp [initState, alignUp, alignofBCHeader]
    have hs1 : s1.bytecode = List.replicate 24 0 := by
      rw [← hb1]
      simp [initState, alignUp, alignofBCHeader, sizeofBCHeader]
    rw [storeBytesAt_run] at hh2
    injection hh2 with hh2
    injection hh2 with ha2 hb2
    have hs2 : s2.bytecode = magicBytes ++ List.replicate 16 0 := by
      rw [← hb2]
      show storeBytes s1.bytecode hoff magicBytes = _
      rw [hs1, hoff0]
      decide
    rw [storeBytesAt_run] at hh3
    injection hh3 with hh3
    injection hh3 with ha3 hb3
    have hs3 : s3.bytecode = magicBytes ++ List.replicate 16 0 := by
      rw [← hb3]
      show storeBytes s2.bytecode (hoff + 8) (leBytes 4 0) = _
      rw [hs2, hoff0]
      decide
    have h12s3 : 12 ≤ s3.bytecode.length := by rw [hs3]; decide
    have htake3 : s3.bytecode.take 12 = magicBytes ++ [0, 0, 0, 0] := by
      rw [hs3]; decide
    obtain ⟨hl4, ht4⟩ := pres_genModulesLoop compileReq.translationUnits s3 mods s4 hmods h12s3
    have hge12 : 12 ≤ hoff + 12 := by omega
    obtain ⟨hl5, ht5⟩ :=
      pres_storeBytesAt (hoff + 12) (leBytes 4 mods.length) hge12 s4 u5 s5 hh5 hl4
    obtain ⟨hl6, ht6⟩ := pres_allocateRaw _ _ s5 moff s6 hh6 hl5
    have hge16 : 12 ≤ hoff + 16 := by omega
    obtain ⟨hl7, ht7⟩ :=
      pres_storeBytesAt (hoff + 16) (leBytes 8 moff) hge16 s6 u7 s7 hh7 hl6
    have hfin : s7.bytecode.take 12 = magicBytes ++ [0, 0, 0, 0] :=
      (ht7.trans (ht6.trans (ht5.trans ht4))).trans htake3
    subst h81
    refine ⟨?_, ?_, hoff0⟩
    · have h88 : (s7.bytecode.take 12).take 8 = s7.bytecode.take 8 := by
        rw [List.take_take]
        norm_num
      rw [← h88, hfin]
      rfl
    · have hdt : (s7.bytecode.take 12).drop 8 = (s7.bytecode.drop 8).take 4 := by
        simpa using List.drop_take 12 8 s7.bytecode
      rw [← hdt, hfin]
      rfl

set_option maxHeartbeats 8000000 in
set_option maxRecDepth 8000 in
/-- Witness for `claim_C6_header_bytes` at the empty compile request. -/
theorem claim_C6_header_bytes_witness :
    outEmptyC6.take 8 = magicBytes ∧ (outEmptyC6.drop 8).take 4 = [0, 0, 0, 0] ∧
    (ContainerShadow.mk 0 0 []).headerOff = 0 :=
  claim_C6_header_bytes (I := alImpl) emptyReq outEmptyC6 ⟨0, 0, []⟩ (by
    simp [generateBytecodeForCompileRequest, generateBytecodeContainer, genModulesLoop,
      storeBytesAt, storeBytes, storeByte, allocateRaw, alignUp, run_bind, run_pure,
      initState, emptyReq, outEmptyC6, magicBytes, leBytes, sizeofBCHeader,
      alignofBCHeader, sizeofBCPtr])

/-! ## Claim C10 -/

/-- Shape of the module loop of the container assembler: one entry per
translation unit, and a unit without an IR module contributes the null
pointer. -/
theorem genModulesLoop_shape {I : DictImpl} (units : List TranslationUnit) :
    ∀ (s : GenState I) r s', genModulesLoop units s = .ok (r, s') →
      r.length = units.length ∧
      ∀ i, (units.getD i ⟨none⟩).irModule = none → r.getD i none = none := by
  induction units with
  | nil =>
    intro s r s' h
    rw [show genModulesLoop (I := I) [] = pure [] from rfl, run_pure] at h
    injection h with h
    injection h with h1 h2
    subst h1
    exact ⟨rfl, fun i _ => rfl⟩
  | cons tu rest ih =>
    intro s r s' h
    rw [genModulesLoop] at h
    obtain ⟨bc, s1, hbc, h2⟩ := bind_ok h
    obtain ⟨bcs, s2, hbcs, h3⟩ := bind_ok h2
    rw [run_pure] at h3
    injection h3 with h3
    injection h3 with h31 h32
    subst h31
    obtain ⟨hlen, hnull⟩ := ih s1 bcs s2 hbcs
    refine ⟨by simp [hlen], ?_⟩
    intro i hi
    cases i with
    | zero =>
      simp only [List.getD_cons_zero] at hi ⊢
      rw [hi] at hbc
      rw [show generateBytecodeForModule (I := I) none = pure none from rfl,
        run_pure] at hbc
      injection hbc with hbc
      injection hbc with hbc1 hbc2
      exact hbc1.symm
    | succ n =>
      simp only [List.getD_cons_succ] at hi ⊢
      exact hnull n hi

/-- Claim C10: a translation unit without an IR module yields the null
handle from `generateBytecodeForModule`; the unit is still counted in the
header's module count, but its entry in the modules array is the null
pointer (so not every `modules[i]` is dereferenceable). -/
theorem claim_C10_null_module {I : DictImpl} (compileReq : CompileRequest)
    (out : List UInt8) (sh : ContainerShadow)
    (hrun : generateBytecodeForCompileRequest I compileReq = .ok (out, sh)) :
    (∀ s : GenState I, generateBytecodeForModule (I := I) none s = .ok (none, s)) ∧
    sh.modules.length = compileReq.translationUnits.length ∧
    sh.moduleCount = compileReq.translationUnits.length % 2 ^ 32 ∧
    ∀ i, (compileReq.translationUnits.getD i ⟨none⟩).irModule = none →
      sh.modules.getD i none = none := by
  refine ⟨fun s => rfl, ?_⟩
  unfold generateBytecodeForCompileRequest at hrun
  cases hcont : generateBytecodeContainer (I := I) compileReq (initState I) with
  | error e => rw [hcont] at hrun; cases hrun
  | ok p =>
    obtain ⟨shadow, sEnd⟩ := p
    rw [hcont] at hrun
    injection hrun with hrun
    injection hrun with hrun1 hrun2
    subst hrun2
    unfold generateBytecodeContainer at hcont
    obtain ⟨hoff, s1, _, h2⟩ := bind_ok hcont
    obtain ⟨u2, s2, _, h3⟩ := bind_ok h2
    obtain ⟨u3, s3, _, h4⟩ := bind_ok h3
    obtain ⟨mods, s4, hmods, h5⟩ := bind_ok h4
    obtain ⟨u5, s5, _, h6⟩ := bind_ok h5
    obtain ⟨moff, s6, _, h7⟩ := bind_ok h6
    obtain ⟨u7, s7, _, h8⟩ := bind_ok h7
    rw [run_pure] at h8
    injection h8 with h8
    injection h8 with h81 h82
    subst h81
    obtain ⟨hlen, hnull⟩ := genModulesLoop_shape compileReq.translationUnits s3 mods s4 hmods
    exact ⟨by simpa using hlen, by simpa using hlen ▸ rfl, by simpa using hnull⟩

/-- Witness for `claim_C10_null_module` at `reqC10` (one module-less
translation unit). -/
theorem claim_C10_null_module_witness :
    (∀ s : GenState alImpl, generateBytecodeForModule (I := alImpl) none s = .ok (none, s)) ∧
    shC10.modules.length = reqC10.translationUnits.length ∧
    shC10.moduleCount = reqC10.translationUnits.length % 2 ^ 32 ∧
    ∀ i, (reqC10.translationUnits.getD i ⟨none⟩).irModule = none →
      shC10.modules.getD i none = none :=
  claim_C10_null_module reqC10 outC10 shC10 (by rfl)

/-! ## Claim C7 -/

theorem withFreshLocals_ok {I : DictImpl} {α : Type} {m : GenM I α} {s : GenState I}
    {a : α} {s' : GenState I} (h : withFreshLocals m s = .ok (a, s')) :
    ∃ t', m (resetLocals s) = .ok (a, t') := by
  unfold withFreshLocals at h
  cases hm : m (resetLocals s) with
  | ok p =>
    obtain ⟨b, t'⟩ := p
    rw [hm] at h
    injection h with h
    injection h with h1 h2
    subst h1
    exact ⟨t', rfl⟩
  | error e => rw [hm] at h; cases h

/-- The per-block register count of the source's counting pass equals the
spec's per-block formula. -/
theorem blockCounts_regs (insts : List IRInstData) :
    (blockCounts insts).2 = insts.countP (fun ii => ii.op == kIROp_Param)
      + 2 * insts.countP (fun ii => ii.op == kIROp_Var)
      + insts.countP
          (fun ii => ii.op != kIROp_Param && ii.op != kIROp_Var && opHasResult ii) := by
  have hpv : (kIROp_Param == kIROp_Var) = false := by decide
  have hvp : (kIROp_Var == kIROp_Param) = false := by decide
  have hppv : ¬ (kIROp_Param = kIROp_Var) := by decide
  have hvpp : ¬ (kIROp_Var = kIROp_Param) := by decide
  induction insts with
  | nil => rfl
  | cons ii rest ih =>
    by_cases h1 : ii.op = kIROp_Param
    · simp [blockCounts, h1, List.countP_cons, ih, hpv, hvp, hppv, hvpp]
      omega
    · by_cases h2 : ii.op = kIROp_Var
      · simp [blockCounts, h1, h2, List.countP_cons, ih, hpv, hvp, hppv, hvpp]
        omega
      · by_cases h3 : opHasResult ii
        · simp [blockCounts, h1, h2, h3, List.countP_cons, ih]
          omega
        · simp [blockCounts, h1, h2, h3, List.countP_cons, ih]

/-- The total of the counting pass equals the spec's register formula. -/
theorem countPass_regs (blocks : List IRBlockData) :
    (countPass blocks).2 = regCountSpec blocks := by
  induction blocks with
  | nil => rfl
  | cons b bs ih =>
    have h0 : (countPass (b :: bs)).2 = (blockCounts b.insts).2 + (countPass bs).2 := rfl
    rw [h0, ih, blockCounts_regs]
    simp only [regCountSpec, List.map_cons, List.sum_cons, specBlockRegs]

/-- Claim C7: for every IR function, the `regCount` stored in its BCFunc
record equals the sum over its blocks of (number of `Param` instructions)
plus twice (number of `Var` instructions) plus (number of other
instructions whose result type is present and not void) - whenever that
sum fits the 32-bit field it is stored in. -/
theorem claim_C7_regCount {I : DictImpl} (inst : IRGlobalValueData) (s : GenState I)
    (off : Nat) (sh : BCSymbolShadow) (s' : GenState I)
    (hf : inst.op = kIROp_Func)
    (hrun : generateBytecodeSymbolForInst inst s = .ok (some (off, sh), s'))
    (hsize : regCountSpec inst.blocks < 2 ^ 32) :
    sh.regCount = regCountSpec inst.blocks := by
  unfold generateBytecodeSymbolForInst at hrun
  rw [if_pos hf] at hrun
  obtain ⟨o1, s1, _, h2⟩ := bind_ok hrun
  obtain ⟨tid, s2, _, h3⟩ := bind_ok h2
  obtain ⟨t', hbody⟩ := withFreshLocals_ok h3
  obtain ⟨u1, t1, _, hb2⟩ := bind_ok hbody
  obtain ⟨o2, t2, _, hb3⟩ := bind_ok hb2
  rcases hcp : countPass inst.blocks with ⟨paramCounts, regCount⟩
  rw [hcp] at hb3
  obtain ⟨o3, t3, _, hb4⟩ := bind_ok hb3
  obtain ⟨fillRes, t4, _, hb5⟩ := bind_ok hb4
  obtain ⟨offsets, t5, _, hb6⟩ := bind_ok hb5
  obtain ⟨code, t6, _, hb7⟩ := bind_ok hb6
  obtain ⟨o4, t7, _, hb8⟩ := bind_ok hb7
  obtain ⟨u2, t8, _, hb9⟩ := bind_ok hb8
  obtain ⟨consts, t9, _, hb10⟩ := bind_ok hb9
  obtain ⟨o5, t10, _, hb11⟩ := bind_ok hb10
  rw [run_pure] at hb11
  injection hb11 with hb11
  injection hb11 with hb111 hb112
  injection hb111 with hb111
  injection hb111 with hoff hsh
  subst hsh
  have : regCount = regCountSpec inst.blocks := by
    have := countPass_regs inst.blocks
    rw [hcp] at this
    exact this
  subst this
  exact Nat.mod_eq_of_lt hsize

/-- Witness for `claim_C7_regCount` at the block-less function
`funcEmptyC7`. -/
theorem claim_C7_regCount_witness :
    shEmptyC7.regCount = regCountSpec funcEmptyC7.blocks :=
  claim_C7_regCount (I := alImpl) funcEmptyC7 (initState alImpl) 0 shEmptyC7
    { initState alImpl with bytecode := List.replicate 64 0 }
    rfl (by rfl) (by decide)

/-! ## Claim C8 -/

/-- Claim C8: operand encoding fails (and it fails precisely with the
"no ID for inst" report) if and only if the operand has no per-function
local id, no entry in the module value-to-global map, and is not an
`IntLit`; any other operand resolves without error. -/
theorem claim_C8_operand_resolution {I : DictImpl} (s : GenState I) (v : OperandRef) :
    (encodeOperand v s = .error .noIDForInst ↔
      (I.find? s.mapInstToLocalID v.oid = none ∧
       I.find? s.mapValueToGlobal v.oid = none ∧
       v.op ≠ kIROp_IntLit)) ∧
    ((∃ e, encodeOperand v s = .error e) ↔
      (I.find? s.mapInstToLocalID v.oid = none ∧
       I.find? s.mapValueToGlobal v.oid = none ∧
       v.op ≠ kIROp_IntLit)) := by
  have main : ∀ P : Prop, (encodeOperand v s = .error .noIDForInst → P) →
      ((∃ e, encodeOperand v s = .error e) → P) → True := fun _ _ _ => trivial
  clear main
  unfold encodeOperand getLocalID getGlobalValue
  cases h1 : I.find? s.mapInstToLocalID v.oid with
  | some id =>
    simp only [run_bind, findInstLocalID, h1]
    obtain ⟨bs, hok⟩ := encodeSInt_ok (I := I) id s
    rw [hok]
    constructor
    · constructor
      · intro h; cases h
      · rintro ⟨hc, -, -⟩; simp at hc
    · constructor
      · rintro ⟨e, h⟩; cases h
      · rintro ⟨hc, -, -⟩; simp at hc
  | none =>
    cases h2 : I.find? s.mapValueToGlobal v.oid with
    | some bc =>
      simp only [run_bind, findInstLocalID, h1, findValueToGlobal, h2, run_pure,
        getRemapped, pushRemapped, addInstLocalID]
      obtain ⟨bs, hok⟩ := encodeSInt_ok
        (I := I) (-(s.remappedGlobalSymbols.length + 1))
        { s with remappedGlobalSymbols := s.remappedGlobalSymbols ++ [bc],
                 mapInstToLocalID := I.add s.mapInstToLocalID v.oid
                   (-(s.remappedGlobalSymbols.length + 1)) }
      rw [hok]
      constructor
      · constructor
        · intro h; cases h
        · rintro ⟨-, hc, -⟩; simp at hc
      · constructor
        · rintro ⟨e, h⟩; cases h
        · rintro ⟨-, hc, -⟩; simp at hc
    | none =>
      by_cases h3 : v.op = kIROp_IntLit
      · simp only [run_bind, findInstLocalID, h1, findValueToGlobal, h2, h3,
          if_pos, run_pure, getConstants, pushConstant, addValueToGlobal,
          getRemapped, pushRemapped, addInstLocalID]
        obtain ⟨bs, hok⟩ := encodeSInt_ok
          (I := I) (-(s.remappedGlobalSymbols.length + 1))
          { s with constants := s.constants ++ [v],
                   mapValueToGlobal := I.add s.mapValueToGlobal v.oid
                     ⟨.constant, s.constants.length⟩,
                   remappedGlobalSymbols :=
                     s.remappedGlobalSymbols ++ [(⟨.constant, s.constants.length⟩ : BCConst)],
                   mapInstToLocalID := I.add s.mapInstToLocalID v.oid
                     (-(s.remappedGlobalSymbols.length + 1)) }
        rw [hok]
        constructor
        · constructor
          · intro h; cases h
          · rintro ⟨-, -, hc⟩; exact absurd rfl hc
        · constructor
          · rintro ⟨e, h⟩; cases h
          · rintro ⟨-, -, hc⟩; exact absurd rfl hc
      · simp only [run_bind, findInstLocalID, h1, findValueToGlobal, h2, h3,
          if_neg, run_throwG]
        constructor
        · constructor
          · intro _; exact ⟨trivial, trivial, h3⟩
          · intro _; rfl
        · constructor
          · intro _; exact ⟨trivial, trivial, h3⟩
          · intro _; exact ⟨.noIDForInst, rfl⟩

/-! ## Claim C9: independence from the dictionary implementation

The source keeps its maps in `Dictionary<K,V>` hash tables.  The suite
below proves that two runs of the whole generator over any two lawful
dictionary implementations stay in lock-step, so the output bytes never
depend on the hash-map internals (in particular not on iteration order,
which the source never uses). -/

section C9Lemmas

variable {I1 I2 : DictImpl}

theorem drel_empty (L1 : DictLawful I1) (L2 : DictLawful I2)
    {κ ν : Type} [DecidableEq κ] :
    DRel I1 I2 (I1.empty (κ := κ) (ν := ν)) I2.empty := by
  intro k
  rw [L1.find_empty, L2.find_empty]

theorem drel_add (L1 : DictLawful I1) (L2 : DictLawful I2)
    {κ ν : Type} [DecidableEq κ] {d1 : I1.D κ ν} {d2 : I2.D κ ν}
    (hd : DRel I1 I2 d1 d2) (k : κ) (v : ν) :
    DRel I1 I2 (I1.add d1 k v) (I2.add d2 k v) := by
  intro k2
  rw [L1.find_add, L2.find_add, hd k2]

theorem srel_init (L1 : DictLawful I1) (L2 : DictLawful I2) :
    SRel I1 I2 (initState I1) (initState I2) :=
  ⟨rfl, drel_empty L1 L2, rfl, drel_empty L1 L2, rfl, rfl, rfl, drel_empty L1 L2⟩

theorem erel_pure {α : Type} (a : α) :
    ERel I1 I2 (pure a : GenM I1 α) (pure a) := by
  intro s1 s2 hs
  exact ⟨rfl, hs⟩

theorem erel_throwG {α : Type} (e : GenErr) :
    ERel I1 I2 (throwG e : GenM I1 α) (throwG e) := by
  intro s1 s2 hs
  rfl

theorem erel_bind {α β : Type} {m1 : GenM I1 α} {m2 : GenM I2 α}
    {f1 : α → GenM I1 β} {f2 : α → GenM I2 β}
    (hm : ERel I1 I2 m1 m2) (hf : ∀ a, ERel I1 I2 (f1 a) (f2 a)) :
    ERel I1 I2 (m1 >>= f1) (m2 >>= f2) := by
  intro s1 s2 hs
  have h := hm s1 s2 hs
  rw [run_bind m1 f1 s1, run_bind m2 f2 s2]
  cases h1 : m1 s1 with
  | error e1 =>
    cases h2 : m2 s2 with
    | error e2 =>
      rw [h1, h2] at h
      exact h
    | ok p2 =>
      obtain ⟨a2, t2⟩ := p2
      rw [h1, h2] at h
      exact h.elim
  | ok p1 =>
    obtain ⟨a1, t1⟩ := p1
    cases h2 : m2 s2 with
    | error e2 =>
      rw [h1, h2] at h
      exact h.elim
    | ok p2 =>
      obtain ⟨a2, t2⟩ := p2
      rw [h1, h2] at h
      obtain ⟨ha, ht⟩ := h
      subst ha
      exact hf a1 t1 t2 ht

theorem erel_allocateRaw (size align : Nat) :
    ERel I1 I2 (allocateRaw size align : GenM I1 Nat) (allocateRaw size align) := by
  intro s1 s2 hs
  obtain ⟨hb, hvg, hbt, hti, hc, hcb, hrs, hil⟩ := hs
  exact ⟨by rw [hb], by simp only [hb], hvg, hbt, hti, hc, hcb, hrs, hil⟩

theorem erel_storeBytesAt (off : Nat) (bs : List UInt8) :
    ERel I1 I2 (storeBytesAt off bs : GenM I1 Unit) (storeBytesAt off bs) := by
  intro s1 s2 hs
  obtain ⟨hb, hvg, hbt, hti, hc, hcb, hrs, hil⟩ := hs
  exact ⟨rfl, by rw [hb], hvg, hbt, hti, hc, hcb, hrs, hil⟩

theorem erel_findValueToGlobal (k : Nat) :
    ERel I1 I2 (findValueToGlobal k : GenM I1 (Option BCConst)) (findValueToGlobal k) := by
  intro s1 s2 hs
  exact ⟨hs.mapValueToGlobal k, hs⟩

theorem erel_addValueToGlobal (L1 : DictLawful I1) (L2 : DictLawful I2)
    (k : Nat) (v : BCConst) :
    ERel I1 I2 (addValueToGlobal k v : GenM I1 Unit) (addValueToGlobal k v) := by
  intro s1 s2 hs
  obtain ⟨hb, hvg, hbt, hti, hc, hcb, hrs, hil⟩ := hs
  exact ⟨rfl, hb, drel_add L1 L2 hvg k v, hbt, hti, hc, hcb, hrs, hil⟩

theorem erel_findTypeToID (k : Option Ty) :
    ERel I1 I2 (findTypeToID k : GenM I1 (Option Nat)) (findTypeToID k) := by
  intro s1 s2 hs
  exact ⟨hs.mapTypeToID k, hs⟩

theorem erel_getBCTypes :
    ERel I1 I2 (getBCTypes : GenM I1 (List BCTypeShadow)) getBCTypes := by
  intro s1 s2 hs
  exact ⟨hs.bcTypes, hs⟩

theorem erel_registerType (L1 : DictLawful I1) (L2 : DictLawful I2)
    (k : Option Ty) (id : Nat) (sh : BCTypeShadow) :
    ERel I1 I2 (registerType k id sh : GenM I1 Unit) (registerType k id sh) := by
  intro s1 s2 hs
  obtain ⟨hb, hvg, hbt, hti, hc, hcb, hrs, hil⟩ := hs
  exact ⟨rfl, hb, hvg, by rw [hbt], drel_add L1 L2 hti k id, hc, hcb, hrs, hil⟩

theorem erel_getConstants :
    ERel I1 I2 (getConstants : GenM I1 (List OperandRef)) getConstants := by
  intro s1 s2 hs
  exact ⟨hs.constants, hs⟩

theorem erel_pushConstant (v : OperandRef) :
    ERel I1 I2 (pushConstant v : GenM I1 Unit) (pushConstant v) := by
  intro s1 s2 hs
  obtain ⟨hb, hvg, hbt, hti, hc, hcb, hrs, hil⟩ := hs
  exact ⟨rfl, hb, hvg, hbt, hti, by rw [hc], hcb, hrs, hil⟩

theorem erel_getRemapped :
    ERel I1 I2 (getRemapped : GenM I1 (List BCConst)) getRemapped := by
  intro s1 s2 hs
  exact ⟨hs.remappedGlobalSymbols, hs⟩

theorem erel_pushRemapped (v : BCConst) :
    ERel I1 I2 (pushRemapped v : GenM I1 Unit) (pushRemapped v) := by
  intro s1 s2 hs
  obtain ⟨hb, hvg, hbt, hti, hc, hcb, hrs, hil⟩ := hs
  exact ⟨rfl, hb, hvg, hbt, hti, hc, hcb, by rw [hrs], hil⟩

theorem erel_findInstLocalID (k : Nat) :
    ERel I1 I2 (findInstLocalID k : GenM I1 (Option Int)) (findInstLocalID k) := by
  intro s1 s2 hs
  exact ⟨hs.mapInstToLocalID k, hs⟩

theorem erel_addInstLocalID (L1 : DictLawful I1) (L2 : DictLawful I2)
    (k : Nat) (v : Int) :
    ERel I1 I2 (addInstLocalID k v : GenM I1 Unit) (addInstLocalID k v) := by
  intro s1 s2 hs
  obtain ⟨hb, hvg, hbt, hti, hc, hcb, hrs, hil⟩ := hs
  exact ⟨rfl, hb, hvg, hbt, hti, hc, hcb, hrs, drel_add L1 L2 hil k v⟩

theorem erel_getCurrentCode :
    ERel I1 I2 (getCurrentCode : GenM I1 (List UInt8)) getCurrentCode := by
  intro s1 s2 hs
  exact ⟨hs.currentBytecode, hs⟩

theorem erel_encodeUInt8 (b : UInt8) :
    ERel I1 I2 (encodeUInt8 b : GenM I1 Unit) (encodeUInt8 b) := by
  intro s1 s2 hs
  obtain ⟨hb, hvg, hbt, hti, hc, hcb, hrs, hil⟩ := hs
  exact ⟨rfl, hb, hvg, hbt, hti, hc, by rw [hcb], hrs, hil⟩

theorem erel_withFreshLocals (L1 : DictLawful I1) (L2 : DictLawful I2)
    {α : Type} {m1 : GenM I1 α} {m2 : GenM I2 α} (hm : ERel I1 I2 m1 m2) :
    ERel I1 I2 (withFreshLocals m1) (withFreshLocals m2) := by
  intro s1 s2 hs
  have hres : SRel I1 I2 (resetLocals s1) (resetLocals s2) :=
    ⟨hs.bytecode, hs.mapValueToGlobal, hs.bcTypes, hs.mapTypeToID, hs.constants,
     rfl, rfl, drel_empty L1 L2⟩
  have h := hm (resetLocals s1) (resetLocals s2) hres
  unfold withFreshLocals
  cases h1 : m1 (resetLocals s1) with
  | error e1 =>
    cases h2 : m2 (resetLocals s2) with
    | error e2 =>
      rw [h1, h2] at h
      exact h
    | ok p2 =>
      obtain ⟨a2, t2⟩ := p2
      rw [h1, h2] at h
      exact h.elim
  | ok p1 =>
    obtain ⟨a1, t1⟩ := p1
    cases h2 : m2 (resetLocals s2) with
    | error e2 =>
      rw [h1, h2] at h
      exact h.elim
    | ok p2 =>
      obtain ⟨a2, t2⟩ := p2
      rw [h1, h2] at h
      obtain ⟨ha, ht⟩ := h
      refine ⟨ha, ht.bytecode, ht.mapValueToGlobal, ht.bcTypes, ht.mapTypeToID,
        ht.constants, hs.currentBytecode, hs.remappedGlobalSymbols, hs.mapInstToLocalID⟩

theorem erel_emitBytes (bs : List UInt8) :
    ERel I1 I2 (emitBytes bs : GenM I1 Unit) (emitBytes bs) := by
  induction bs with
  | nil => exact erel_pure ()
  | cons b rest ih => exact erel_bind (erel_encodeUInt8 b) fun _ => ih

theorem erel_encodeUInt (value : Nat) :
    ERel I1 I2 (encodeUInt value : GenM I1 Unit) (encodeUInt value) := by
  unfold encodeUInt
  split
  · exact erel_encodeUInt8 _
  · exact erel_emitBytes _

theorem erel_encodeSInt (value : Int) :
    ERel I1 I2 (encodeSInt value : GenM I1 Unit) (encodeSInt value) :=
  erel_encodeUInt _

theorem erel_getGlobalValue (L1 : DictLawful I1) (L2 : DictLawful I2)
    (value : OperandRef) :
    ERel I1 I2 (getGlobalValue value : GenM I1 BCConst) (getGlobalValue value) := by
  unfold getGlobalValue
  refine erel_bind (erel_findValueToGlobal value.oid) fun a => ?_
  match a with
  | some bc => exact erel_pure bc
  | none =>
    by_cases hop : value.op = kIROp_IntLit
    · rw [if_pos hop, if_pos hop]
      refine erel_bind erel_getConstants fun cs => ?_
      refine erel_bind (erel_pushConstant value) fun _ => ?_
      refine erel_bind (erel_addValueToGlobal L1 L2 value.oid _) fun _ => ?_
      exact erel_pure _
    · rw [if_neg hop, if_neg hop]
      exact erel_throwG _

theorem erel_getLocalID (L1 : DictLawful I1) (L2 : DictLawful I2)
    (value : OperandRef) :
    ERel I1 I2 (getLocalID value : GenM I1 Int) (getLocalID value) := by
  unfold getLocalID
  refine erel_bind (erel_findInstLocalID value.oid) fun a => ?_
  match a with
  | some localID => exact erel_pure localID
  | none =>
    refine erel_bind (erel_getGlobalValue L1 L2 value) fun bc => ?_
    refine erel_bind erel_getRemapped fun rs => ?_
    refine erel_bind (erel_pushRemapped bc) fun _ => ?_
    refine erel_bind (erel_addInstLocalID L1 L2 value.oid _) fun _ => ?_
    exact erel_pure _

theorem erel_encodeOperand (L1 : DictLawful I1) (L2 : DictLawful I2)
    (operand : OperandRef) :
    ERel I1 I2 (encodeOperand operand : GenM I1 Unit) (encodeOperand operand) :=
  erel_bind (erel_getLocalID L1 L2 operand) fun id => erel_encodeSInt id

theorem erel_emitBCTypeRecord (L1 : DictLawful I1) (L2 : DictLawful I2)
    (type? : Option Ty) (op : Nat) (args : List Nat) :
    ERel I1 I2 (emitBCTypeRecord type? op args : GenM I1 BCTypeShadow)
      (emitBCTypeRecord type? op args) := by
  unfold emitBCTypeRecord
  refine erel_bind (erel_allocateRaw _ _) fun off => ?_
  refine erel_bind erel_getBCTypes fun bcTypes => ?_
  refine erel_bind (erel_registerType L1 L2 type? _ _) fun _ => ?_
  exact erel_pure _

theorem erel_emitBCVarArgType (L1 : DictLawful I1) (L2 : DictLawful I2)
    (type? : Option Ty) (op : Nat) (args : List Nat) :
    ERel I1 I2 (emitBCVarArgType type? op args : GenM I1 BCTypeShadow)
      (emitBCVarArgType type? op args) :=
  erel_emitBCTypeRecord L1 L2 type? op args

theorem erel_emitBCTypeOp (L1 : DictLawful I1) (L2 : DictLawful I2)
    (type? : Option Ty) (op : Nat) :
    ERel I1 I2 (emitBCTypeOp type? op : GenM I1 BCTypeShadow) (emitBCTypeOp type? op) :=
  erel_emitBCTypeRecord L1 L2 type? op []

theorem erel_emitBCTypeAll (L1 : DictLawful I1) (L2 : DictLawful I2) :
    ∀ fuel : Nat,
    (∀ t? : Option Ty,
      ERel I1 I2 (emitBCTypeF (I := I1) fuel t?) (emitBCTypeF (I := I2) fuel t?)) ∧
    (∀ t? : Option Ty,
      ERel I1 I2 (emitBCTypeImplF (I := I1) fuel t?) (emitBCTypeImplF (I := I2) fuel t?)) ∧
    (∀ ts : TyList,
      ERel I1 I2 (emitBCTypeListF (I := I1) fuel ts) (emitBCTypeListF (I := I2) fuel ts)) := by
  intro fuel
  induction fuel with
  | zero => exact ⟨fun _ => erel_throwG _, fun _ => erel_throwG _, fun _ => erel_throwG _⟩
  | succ n ih =>
    obtain ⟨ihF, ihImpl, ihList⟩ := ih
    refine ⟨fun t? => ?_, fun t? => ?_, fun ts => ?_⟩
    · match t? with
      | none => exact erel_throwG _
      | some t =>
        rw [emitBCTypeF]
        refine erel_bind (erel_findTypeToID _) fun a => ?_
        match a with
        | some id => exact erel_bind erel_getBCTypes fun _ => erel_pure _
        | none => exact ihImpl _
    · match t? with
      | none => exact erel_emitBCTypeOp L1 L2 _ _
      | some t =>
        rw [emitBCTypeImplF.eq_def]
        match t with
        | .basic b =>
          match b with
          | .Void => exact erel_emitBCTypeOp L1 L2 _ _
          | .Bool => exact erel_emitBCTypeOp L1 L2 _ _
          | .Int => exact erel_emitBCTypeOp L1 L2 _ _
          | .UInt => exact erel_emitBCTypeOp L1 L2 _ _
          | .UInt64 => exact erel_emitBCTypeOp L1 L2 _ _
          | .Half => exact erel_emitBCTypeOp L1 L2 _ _
          | .Float => exact erel_emitBCTypeOp L1 L2 _ _
          | .Double => exact erel_emitBCTypeOp L1 L2 _ _
        | .func r ps =>
          refine erel_bind (ihF _) fun rsh => ?_
          refine erel_bind (ihList _) fun args => ?_
          exact erel_emitBCVarArgType L1 L2 _ _ _
        | .ptr v =>
          refine erel_bind (ihF _) fun vsh => ?_
          exact erel_emitBCVarArgType L1 L2 _ _ _
        | .rwStructuredBuffer e =>
          refine erel_bind (ihF _) fun esh => ?_
          exact erel_emitBCVarArgType L1 L2 _ _ _
        | .structuredBuffer e =>
          refine erel_bind (ihF _) fun esh => ?_
          exact erel_emitBCVarArgType L1 L2 _ _ _
        | .unsupported _ => exact erel_throwG _
    · match ts with
      | .nil => exact erel_pure _
      | .cons h tl =>
        rw [emitBCTypeListF]
        refine erel_bind (ihF _) fun sh => ?_
        refine erel_bind (ihList _) fun rest => ?_
        exact erel_pure _

theorem erel_emitBCType (L1 : DictLawful I1) (L2 : DictLawful I2) (t? : Option Ty) :
    ERel I1 I2 (emitBCType t? : GenM I1 BCTypeShadow) (emitBCType t?) :=
  (erel_emitBCTypeAll L1 L2 _).1 t?

theorem erel_getTypeID (L1 : DictLawful I1) (L2 : DictLawful I2) (t? : Option Ty) :
    ERel I1 I2 (getTypeID t? : GenM I1 Nat) (getTypeID t?) :=
  erel_bind (erel_emitBCType L1 L2 t?) fun bc => erel_pure _

theorem erel_getTypeIDForGlobalSymbol (L1 : DictLawful I1) (L2 : DictLawful I2)
    (t? : Option Ty) :
    ERel I1 I2 (getTypeIDForGlobalSymbol t? : GenM I1 Nat) (getTypeIDForGlobalSymbol t?) := by
  unfold getTypeIDForGlobalSymbol
  match t? with
  | none => exact erel_pure _
  | some t => exact erel_getTypeID L1 L2 _

theorem erel_encodeTypeOperand (L1 : DictLawful I1) (L2 : DictLawful I2)
    (t? : Option Ty) :
    ERel I1 I2 (encodeTypeOperand t? : GenM I1 Unit) (encodeTypeOperand t?) :=
  erel_bind (erel_getTypeID L1 L2 t?) fun id => erel_encodeUInt id

theorem erel_encodeOperandList (L1 : DictLawful I1) (L2 : DictLawful I2)
    (os : List OperandRef) :
    ERel I1 I2 (encodeOperandList os : GenM I1 Unit) (encodeOperandList os) := by
  induction os with
  | nil => exact erel_pure ()
  | cons o rest ih => exact erel_bind (erel_encodeOperand L1 L2 o) fun _ => ih

set_option maxHeartbeats 1600000 in
theorem erel_generateBytecodeForInst (L1 : DictLawful I1) (L2 : DictLawful I2)
    (ii : IRInstData) :
    ERel I1 I2 (generateBytecodeForInst ii : GenM I1 Unit) (generateBytecodeForInst ii) := by
  unfold generateBytecodeForInst
  split
  · exact erel_encodeUInt _
  · split
    · refine erel_bind (erel_encodeUInt _) fun _ => ?_
      refine erel_bind (erel_encodeTypeOperand L1 L2 _) fun _ => ?_
      refine erel_bind (erel_encodeUInt _) fun _ => ?_
      exact erel_encodeOperand L1 L2 _
    · split
      · refine erel_bind (erel_encodeUInt _) fun _ => ?_
        refine erel_bind (erel_encodeTypeOperand L1 L2 _) fun _ => ?_
        refine erel_bind (erel_emitBytes _) fun _ => ?_
        exact erel_encodeOperand L1 L2 _
      · split
        · refine erel_bind (erel_encodeUInt _) fun _ => ?_
          refine erel_bind (erel_encodeUInt _) fun _ => ?_
          exact erel_encodeOperand L1 L2 _
        · split
          · refine erel_bind (erel_encodeUInt _) fun _ => ?_
            refine erel_bind (erel_encodeTypeOperand L1 L2 _) fun _ => ?_
            refine erel_bind (erel_encodeOperand L1 L2 _) fun _ => ?_
            exact erel_encodeOperand L1 L2 _
          · split
            · refine erel_bind (erel_encodeUInt _) fun _ => ?_
              refine erel_bind (erel_encodeTypeOperand L1 L2 _) fun _ => ?_
              refine erel_bind (erel_encodeOperand L1 L2 _) fun _ => ?_
              exact erel_encodeOperand L1 L2 _
            · refine erel_bind (erel_encodeUInt _) fun _ => ?_
              refine erel_bind (erel_encodeTypeOperand L1 L2 _) fun _ => ?_
              refine erel_bind (erel_encodeUInt _) fun _ => ?_
              refine erel_bind ?_ fun _ => ?_
              · exact erel_encodeOperandList L1 L2 _
              split
              · exact erel_encodeOperand L1 L2 _
              · exact erel_pure _

end C9Lemmas

section C9LemmasB

variable {I1 I2 : DictImpl}

theorem erel_enumBlocks (L1 : DictLawful I1) (L2 : DictLawful I2)
    (bbs : List IRBlockData) (n : Nat) :
    ERel I1 I2 (enumBlocks bbs n : GenM I1 Unit) (enumBlocks bbs n) := by
  induction bbs generalizing n with
  | nil => exact erel_pure ()
  | cons bb rest ih =>
    rw [enumBlocks, enumBlocks]
    exact erel_bind (erel_addInstLocalID L1 L2 _ _) fun _ => ih _

theorem erel_emitInsts (L1 : DictLawful I1) (L2 : DictLawful I2)
    (insts : List IRInstData) :
    ERel I1 I2 (emitInsts insts : GenM I1 Unit) (emitInsts insts) := by
  induction insts with
  | nil => exact erel_pure ()
  | cons ii rest ih =>
    rw [emitInsts, emitInsts]
    split
    · exact erel_bind (erel_pure _) fun _ => ih
    · exact erel_bind (erel_generateBytecodeForInst L1 L2 ii) fun _ => ih

theorem erel_emitBlocks (L1 : DictLawful I1) (L2 : DictLawful I2)
    (bbs : List IRBlockData) :
    ERel I1 I2 (emitBlocks bbs : GenM I1 (List Nat)) (emitBlocks bbs) := by
  induction bbs with
  | nil => exact erel_pure _
  | cons b bs ih =>
    rw [emitBlocks, emitBlocks]
    refine erel_bind erel_getCurrentCode fun code => ?_
    refine erel_bind (erel_emitInsts L1 L2 _) fun _ => ?_
    exact erel_bind ih fun rest => erel_pure _

theorem erel_fillInsts (L1 : DictLawful I1) (L2 : DictLawful I2)
    (insts : List IRInstData) (n : Nat) :
    ERel I1 I2 (fillInsts insts n : GenM I1 (Nat × List BCRegShadow)) (fillInsts insts n) := by
  induction insts generalizing n with
  | nil => exact erel_pure _
  | cons ii rest ih =>
    rw [fillInsts, fillInsts]
    split
    · refine erel_bind (erel_addInstLocalID L1 L2 _ _) fun _ => ?_
      refine erel_bind (erel_getTypeIDForGlobalSymbol L1 L2 _) fun t1 => ?_
      refine erel_bind ?_ fun t2 => ?_
      · split
        · exact erel_getTypeID L1 L2 _
        · exact erel_throwG _
      · exact erel_bind (ih _) fun p => erel_pure _
    · split
      · refine erel_bind (erel_addInstLocalID L1 L2 _ _) fun _ => ?_
        refine erel_bind (erel_getTypeIDForGlobalSymbol L1 L2 _) fun t => ?_
        exact erel_bind (ih _) fun p => erel_pure _
      · exact ih n

theorem erel_fillBlocks (L1 : DictLawful I1) (L2 : DictLawful I2)
    (bbs : List IRBlockData) (n : Nat) :
    ERel I1 I2 (fillBlocks bbs n : GenM I1 (Nat × (List Nat × List BCRegShadow)))
      (fillBlocks bbs n) := by
  induction bbs generalizing n with
  | nil => exact erel_pure _
  | cons b bs ih =>
    rw [fillBlocks, fillBlocks]
    refine erel_bind (erel_fillInsts L1 L2 _ _) fun p => ?_
    exact erel_bind (ih _) fun q => erel_pure _

theorem erel_allocateString (data : List UInt8) :
    ERel I1 I2 (allocateString data : GenM I1 Nat) (allocateString data) := by
  unfold allocateString
  refine erel_bind (erel_allocateRaw _ _) fun ptr => ?_
  exact erel_bind (erel_storeBytesAt _ _) fun _ => erel_pure _

theorem erel_tryGenerateNameForSymbol (g : IRGlobalValueData) :
    ERel I1 I2 (tryGenerateNameForSymbol g : GenM I1 (Option Nat))
      (tryGenerateNameForSymbol g) := by
  unfold tryGenerateNameForSymbol
  split
  · exact erel_bind (erel_allocateString _) fun ptr => erel_pure _
  · exact erel_pure _

theorem erel_generateBytecodeSymbolForInst (L1 : DictLawful I1) (L2 : DictLawful I2)
    (g : IRGlobalValueData) :
    ERel I1 I2 (generateBytecodeSymbolForInst g : GenM I1 (Option (Nat × BCSymbolShadow)))
      (generateBytecodeSymbolForInst g) := by
  unfold generateBytecodeSymbolForInst
  split
  · refine erel_bind (erel_allocateRaw _ _) fun o1 => ?_
    refine erel_bind (erel_getTypeIDForGlobalSymbol L1 L2 _) fun tid => ?_
    refine erel_withFreshLocals L1 L2 ?_
    refine erel_bind (erel_enumBlocks L1 L2 _ _) fun _ => ?_
    refine erel_bind (erel_allocateRaw _ _) fun o2 => ?_
    split
    refine erel_bind (erel_allocateRaw _ _) fun o3 => ?_
    refine erel_bind (erel_fillBlocks L1 L2 _ _) fun fr => ?_
    refine erel_bind (erel_emitBlocks L1 L2 _) fun offs => ?_
    refine erel_bind erel_getCurrentCode fun code => ?_
    refine erel_bind (erel_allocateRaw _ _) fun o4 => ?_
    refine erel_bind (erel_storeBytesAt _ _) fun _ => ?_
    refine erel_bind erel_getRemapped fun consts => ?_
    exact erel_bind (erel_allocateRaw _ _) fun o5 => erel_pure _
  · split
    · refine erel_bind (erel_allocateRaw _ _) fun off => ?_
      exact erel_bind (erel_getTypeID L1 L2 _) fun tid => erel_pure _
    · exact erel_pure _

theorem erel_preAssignGlobals (L1 : DictLawful I1) (L2 : DictLawful I2)
    (items : List GlobalItem) (n : Nat) :
    ERel I1 I2 (preAssignGlobals items n : GenM I1 Nat) (preAssignGlobals items n) := by
  induction items generalizing n with
  | nil => exact erel_pure _
  | cons it rest ih =>
    cases it with
    | notGV iid op => exact ih n
    | gv g =>
      rw [preAssignGlobals, preAssignGlobals]
      refine erel_bind (erel_addValueToGlobal L1 L2 _ _) fun _ => ?_
      refine erel_bind (erel_addInstLocalID L1 L2 _ _) fun _ => ?_
      exact ih _

theorem erel_emitSymbols (L1 : DictLawful I1) (L2 : DictLawful I2)
    (items : List GlobalItem) (symbols : List (Option Nat)) :
    ERel I1 I2 (emitSymbols items symbols : GenM I1 (List (Option Nat)))
      (emitSymbols items symbols) := by
  induction items generalizing symbols with
  | nil => exact erel_pure _
  | cons it rest ih =>
    cases it with
    | notGV iid op => exact ih symbols
    | gv g =>
      rw [emitSymbols, emitSymbols]
      refine erel_bind ?_ fun idx => ?_
      · refine erel_bind (erel_findInstLocalID _) fun a => ?_
        match a with
        | some i => exact erel_pure _
        | none => exact erel_throwG _
      refine erel_bind (erel_generateBytecodeSymbolForInst L1 L2 _) fun r => ?_
      match r with
      | none => exact ih symbols
      | some p =>
        refine erel_bind (erel_tryGenerateNameForSymbol _) fun nm => ?_
        exact ih _

theorem erel_emitConstants (L1 : DictLawful I1) (L2 : DictLawful I2)
    (cs : List OperandRef) :
    ERel I1 I2 (emitConstants cs : GenM I1 (List BCConstantShadow)) (emitConstants cs) := by
  induction cs with
  | nil => exact erel_pure _
  | cons c rest ih =>
    rw [emitConstants, emitConstants]
    refine erel_bind (erel_getTypeID L1 L2 _) fun tid => ?_
    split
    · refine erel_bind (erel_allocateRaw _ _) fun off => ?_
      refine erel_bind (erel_storeBytesAt _ _) fun _ => ?_
      exact erel_bind ih fun r => erel_pure _
    · exact erel_bind (erel_pure _) fun _ => erel_bind ih fun r => erel_pure _

theorem erel_generateBytecodeForModule (L1 : DictLawful I1) (L2 : DictLawful I2)
    (m? : Option IRModuleData) :
    ERel I1 I2 (generateBytecodeForModule m? : GenM I1 (Option BCModuleShadow))
      (generateBytecodeForModule m?) := by
  unfold generateBytecodeForModule
  match m? with
  | none => exact erel_pure _
  | some m =>
    refine erel_bind (erel_allocateRaw _ _) fun off => ?_
    refine erel_bind (erel_preAssignGlobals L1 L2 _ _) fun n => ?_
    refine erel_bind (erel_allocateRaw _ _) fun o2 => ?_
    refine erel_bind (erel_emitSymbols L1 L2 _ _) fun syms => ?_
    refine erel_bind erel_getConstants fun cs => ?_
    refine erel_bind (erel_allocateRaw _ _) fun o3 => ?_
    refine erel_bind (erel_emitConstants L1 L2 _) fun shs => ?_
    refine erel_bind erel_getBCTypes fun ts => ?_
    exact erel_bind (erel_allocateRaw _ _) fun o4 => erel_pure _

theorem erel_genModulesLoop (L1 : DictLawful I1) (L2 : DictLawful I2)
    (units : List TranslationUnit) :
    ERel I1 I2 (genModulesLoop units : GenM I1 (List (Option BCModuleShadow)))
      (genModulesLoop units) := by
  induction units with
  | nil => exact erel_pure _
  | cons tu rest ih =>
    rw [genModulesLoop, genModulesLoop]
    refine erel_bind (erel_generateBytecodeForModule L1 L2 _) fun bc => ?_
    exact erel_bind ih fun bcs => erel_pure _

theorem erel_generateBytecodeContainer (L1 : DictLawful I1) (L2 : DictLawful I2)
    (compileReq : CompileRequest) :
    ERel I1 I2 (generateBytecodeContainer compileReq : GenM I1 ContainerShadow)
      (generateBytecodeContainer compileReq) := by
  unfold generateBytecodeContainer
  refine erel_bind (erel_allocateRaw _ _) fun headerOff => ?_
  refine erel_bind (erel_storeBytesAt _ _) fun _ => ?_
  refine erel_bind (erel_storeBytesAt _ _) fun _ => ?_
  refine erel_bind (erel_genModulesLoop L1 L2 _) fun mods => ?_
  refine erel_bind (erel_storeBytesAt _ _) fun _ => ?_
  refine erel_bind (erel_allocateRaw _ _) fun modsOff => ?_
  refine erel_bind (erel_storeBytesAt _ _) fun _ => ?_
  exact erel_pure _

end C9LemmasB

/-- Claim C9: generation is deterministic - the output is a pure function
of the IR input, with no dependence on the internals (in particular the
iteration order) of the hash maps: any two lawful dictionary
implementations yield byte-identical results on every compile request. -/
theorem claim_C9_determinism (I1 I2 : DictImpl) (L1 : DictLawful I1)
    (L2 : DictLawful I2) (compileReq : CompileRequest) :
    generateBytecodeForCompileRequest I1 compileReq =
      generateBytecodeForCompileRequest I2 compileReq := by
  have h := erel_generateBytecodeContainer L1 L2 compileReq (initState I1) (initState I2)
    (srel_init L1 L2)
  unfold generateBytecodeForCompileRequest
  cases h1 : generateBytecodeContainer (I := I1) compileReq (initState I1) with
  | error e1 =>
    cases h2 : generateBytecodeContainer (I := I2) compileReq (initState I2) with
    | error e2 =>
      rw [h1, h2] at h
      rw [h]
    | ok p2 =>
      obtain ⟨sh2, t2⟩ := p2
      rw [h1, h2] at h
      exact h.elim
  | ok p1 =>
    obtain ⟨sh1, t1⟩ := p1
    cases h2 : generateBytecodeContainer (I := I2) compileReq (initState I2) with
    | error e2 =>
      rw [h1, h2] at h
      exact h.elim
    | ok p2 =>
      obtain ⟨sh2, t2⟩ := p2
      rw [h1, h2] at h
      obtain ⟨hsh, hst⟩ := h
      rw [hsh]
      show Except.ok (t1.bytecode, sh2) = Except.ok (t2.bytecode, sh2)
      rw [hst.bytecode]

/-- Witness for `claim_C9_determinism`: the association-list and the
function-map implementations agree on a concrete request. -/
theorem claim_C9_determinism_witness :
    DictLawful alImpl ∧ DictLawful fnImpl ∧
    generateBytecodeForCompileRequest alImpl emptyReq =
      generateBytecodeForCompileRequest fnImpl emptyReq :=
  ⟨alImpl_lawful, fnImpl_lawful,
    claim_C9_determinism alImpl fnImpl alImpl_lawful fnImpl_lawful emptyReq⟩

end SlangBC
